import Mathlib

/-!
Verification of the API_Hunter probing pipeline core: a shallow embedding of
the admission throttle (`src/probe/throttle.rs`), the HTTP prober
(`src/probe/http_probe.rs`), the scorer (`src/scoring/score.rs`), the output
writers (`src/output/writer_jsonl.rs`, `writer_csv.rs`, `async_csv.rs`,
`src/utils.rs`) and the orchestrator's timeout wiring (`src/runner.rs`).

Machine integers are modelled as `Nat`/`Int`; `u64` saturating arithmetic is
made explicit where the source uses it.  Rust `String`s are Lean `String`s
(the source only lowercases / compares ASCII in the fragments modelled here).
-/

namespace APIHunter

/-! ## String helpers (models of the Rust `str` operations used by the source) -/

/-- Model of `str::starts_with` on character lists: `leadsWith hay nee` is
true when `nee` is an initial segment of `hay`. -/
def leadsWith : List Char → List Char → Bool
  | _, [] => true
  | [], _ :: _ => false
  | a :: as, b :: bs => a == b && leadsWith as bs

/-- Model of `str::contains(needle)` (substring search). -/
def containsSub : List Char → List Char → Bool
  | [], nee => nee.isEmpty
  | hay@(_ :: t), nee => leadsWith hay nee || containsSub t nee

/-- `String` version of `str::contains`. -/
def sContains (hay nee : String) : Bool := containsSub hay.toList nee.toList

/-- Model of `str::ends_with(suffix)`. -/
def sEndsWith (hay suf : String) : Bool := leadsWith hay.toList.reverse suf.toList.reverse

/-- Model of `str::starts_with(needle)` on `String`s. -/
def sStartsWith (hay nee : String) : Bool := leadsWith hay.toList nee.toList

/-- Model of `str::to_lowercase` (the source only applies it to ASCII URLs and
header values, where Rust's Unicode lowercasing agrees with ASCII lowering). -/
def sLower (s : String) : String := String.mk (s.toList.map Char.toLower)

/-! ## JSON values

A model of `serde_json::Value` as used by the probe/body-sample pipeline.
Arrays and objects are encoded as explicit cons chains inside the single
inductive (`arrNil`/`arrCons`, `objNil`/`objCons`); the predicate `jsonWF`
below carves out the chains whose tails are again of the same kind, which are
exactly the values `serde_json::Value` can represent.  Numbers are modelled as
integers (`serde_json` additionally supports `f64` numbers, which never arise
from the integral fields written by this program's own serializer and are left
out of the model). -/

inductive Json where
  | null : Json
  | bool (b : Bool) : Json
  | num (n : Int) : Json
  | str (s : String) : Json
  | arrNil : Json                                -- the empty array
  | arrCons (hd : Json) (tl : Json) : Json       -- array with head and tail array
  | objNil : Json                                -- the empty object
  | objCons (k : String) (v : Json) (tl : Json) : Json
deriving DecidableEq

/-- Is this an array chain head? -/
def isArrK : Json → Bool
  | .arrNil => true
  | .arrCons _ _ => true
  | _ => false

/-- Is this an object chain head? -/
def isObjK : Json → Bool
  | .objNil => true
  | .objCons _ _ _ => true
  | _ => false

/-- The cons chains that represent actual `serde_json::Value`s. -/
def jsonWF : Json → Bool
  | .arrCons h t => jsonWF h && isArrK t && jsonWF t
  | .objCons _ v t => jsonWF v && isObjK t && jsonWF t
  | _ => true

/-- Model of `serde_json::Value::get(key)` restricted to what the source uses:
on an object, the first binding of `key`; on anything else, `none`. -/
def Json.get : Json → String → Option Json
  | .objCons k' v tl, k => if k' == k then some v else tl.get k
  | _, _ => none

/-! ## JSON serialization (model of `serde_json::to_string` on the fragment above)

`serde_json` emits compact JSON: no whitespace, strings escaped with `\"`,
`\\`, `\b`, `\f`, `\n`, `\r`, `\t` and `\u00XX` (lowercase hex) for the other
control characters, integers in plain decimal. -/

/-- Opening brace character. -/
def lbrace : Char := Char.ofNat 123

/-- Closing brace character. -/
def rbrace : Char := Char.ofNat 125

/-- Lowercase hexadecimal digit for `n < 16`. -/
def hexDigitChar (n : Nat) : Char :=
  if n < 10 then Char.ofNat (48 + n) else Char.ofNat (87 + n)

/-- How `serde_json` escapes one character inside a JSON string. -/
def escChar (c : Char) : List Char :=
  if c = '"' then ['\\', '"']
  else if c = '\\' then ['\\', '\\']
  else if c.toNat = 8 then ['\\', 'b']
  else if c.toNat = 12 then ['\\', 'f']
  else if c = '\n' then ['\\', 'n']
  else if c = '\r' then ['\\', 'r']
  else if c = '\t' then ['\\', 't']
  else if c.toNat < 32 then
    ['\\', 'u', '0', '0', hexDigitChar (c.toNat / 16), hexDigitChar (c.toNat % 16)]
  else [c]

/-- Escape a whole string body. -/
def escString (s : List Char) : List Char := (s.map escChar).flatten

/-- Decimal digit character. -/
def digitChar (n : Nat) : Char := Char.ofNat (48 + n)

/-- Fueled digit accumulator: peels decimal digits of `n` onto `acc`.  Any
fuel above `n` suffices. -/
def natToCharsAux : Nat → Nat → List Char → List Char
  | 0, _, acc => acc
  | fuel + 1, n, acc =>
    if n < 10 then digitChar n :: acc
    else natToCharsAux fuel (n / 10) (digitChar (n % 10) :: acc)

/-- Decimal rendering of a natural number, most significant digit first. -/
def natToChars (n : Nat) : List Char := natToCharsAux (n + 1) n []

/-- Decimal rendering of an integer (as `itoa` prints Rust `i64`/`u64`). -/
def intToChars (n : Int) : List Char :=
  if n < 0 then '-' :: natToChars n.natAbs else natToChars n.toNat

mutual

/-- Compact rendering of a JSON value, as `serde_json::to_string` emits it. -/
def renderChars : Json → List Char
  | .null => 'n' :: ['u', 'l', 'l']
  | .bool true => 't' :: ['r', 'u', 'e']
  | .bool false => 'f' :: ['a', 'l', 's', 'e']
  | .num n => intToChars n
  | .str s => '"' :: (escString s.toList ++ ['"'])
  | .arrNil => ['[', ']']
  | .arrCons j t => '[' :: ((renderChars j ++ renderArrRest t) ++ [']'])
  | .objNil => [lbrace, rbrace]
  | .objCons k v t =>
    lbrace :: ((('"' :: (escString k.toList ++ ('"' :: ':' :: renderChars v)))
      ++ renderObjRest t) ++ [rbrace])

/-- `,value` continuation of an array body. -/
def renderArrRest : Json → List Char
  | .arrCons j t => ',' :: (renderChars j ++ renderArrRest t)
  | _ => []

/-- `,"key":value` continuation of an object body. -/
def renderObjRest : Json → List Char
  | .objCons k v t =>
    ',' :: (('"' :: (escString k.toList ++ ('"' :: ':' :: renderChars v)))
      ++ renderObjRest t)
  | _ => []

end

/-- One `"key":value` member (the shape both object cases above emit). -/
def renderKv (k : String) (v : Json) : List Char :=
  '"' :: (escString k.toList ++ ('"' :: ':' :: renderChars v))

/-! ## JSON parsing (model of `serde_json::from_str` for `Value`)

Restricted to the values the model covers: integer numbers only (no floats,
which this program's own serializer never emits for its integral fields), and
no leading-zero rejection. -/

/-- JSON insignificant whitespace, as `serde_json` skips it. -/
def isWs (c : Char) : Bool := c = ' ' || c = '\t' || c = '\n' || c = '\r'

/-- Skip leading JSON whitespace. -/
def skipWs : List Char → List Char
  | [] => []
  | c :: r => if isWs c then skipWs r else c :: r

/-- Decimal digit test. -/
def isDigitCh (c : Char) : Bool := 48 ≤ c.toNat && c.toNat ≤ 57

/-- The input does not start with a decimal digit (so a preceding maximal
digit run cannot swallow it). -/
def noDigitLead : List Char → Bool
  | [] => true
  | c :: _ => !(isDigitCh c)

/-- Consume a maximal run of decimal digits, folding them onto `acc`. -/
def parseDigits : List Char → Nat → Nat × List Char
  | c :: r, acc =>
      if isDigitCh c then parseDigits r (acc * 10 + (c.toNat - 48)) else (acc, c :: r)
  | [], acc => (acc, [])

/-- Value of a hexadecimal digit character. -/
def hexVal (c : Char) : Option Nat :=
  if 48 ≤ c.toNat ∧ c.toNat ≤ 57 then some (c.toNat - 48)
  else if 97 ≤ c.toNat ∧ c.toNat ≤ 102 then some (c.toNat - 87)
  else if 65 ≤ c.toNat ∧ c.toNat ≤ 70 then some (c.toNat - 55)
  else none

/-- Parse the body of a JSON string after the opening quote, returning the
unescaped contents and the input following the closing quote.  Raw control
characters are rejected, as `serde_json` rejects them. -/
def parseStrBody : List Char → Option (List Char × List Char)
  | [] => none
  | c :: r =>
    if c = '"' then some ([], r)
    else if c = '\\' then
      match r with
      | [] => none
      | e :: r2 =>
        if e = '"' then (parseStrBody r2).map (fun p => ('"' :: p.1, p.2))
        else if e = '\\' then (parseStrBody r2).map (fun p => ('\\' :: p.1, p.2))
        else if e = '/' then (parseStrBody r2).map (fun p => ('/' :: p.1, p.2))
        else if e = 'b' then (parseStrBody r2).map (fun p => (Char.ofNat 8 :: p.1, p.2))
        else if e = 'f' then (parseStrBody r2).map (fun p => (Char.ofNat 12 :: p.1, p.2))
        else if e = 'n' then (parseStrBody r2).map (fun p => ('\n' :: p.1, p.2))
        else if e = 'r' then (parseStrBody r2).map (fun p => ('\r' :: p.1, p.2))
        else if e = 't' then (parseStrBody r2).map (fun p => ('\t' :: p.1, p.2))
        else if e = 'u' then
          match r2 with
          | h1 :: h2 :: h3 :: h4 :: r3 =>
            match hexVal h1, hexVal h2, hexVal h3, hexVal h4 with
            | some a, some b, some c, some d =>
              let code := ((a * 16 + b) * 16 + c) * 16 + d
              if code.isValidChar then
                (parseStrBody r3).map (fun p => (Char.ofNat code :: p.1, p.2))
              else none
            | _, _, _, _ => none
          | _ => none
        else none
    else if c.toNat < 32 then none
    else (parseStrBody r).map (fun p => (c :: p.1, p.2))

mutual

/-- Fueled recursive-descent parser for one JSON value; returns the value and
the remaining input. -/
def parseVal : Nat → List Char → Option (Json × List Char)
  | 0, _ => none
  | f + 1, cs =>
    match skipWs cs with
    | [] => none
    | c :: r =>
      if c = 'n' then
        match r with
        | 'u' :: 'l' :: 'l' :: r2 => some (.null, r2)
        | _ => none
      else if c = 't' then
        match r with
        | 'r' :: 'u' :: 'e' :: r2 => some (.bool true, r2)
        | _ => none
      else if c = 'f' then
        match r with
        | 'a' :: 'l' :: 's' :: 'e' :: r2 => some (.bool false, r2)
        | _ => none
      else if c = '"' then
        (parseStrBody r).map (fun p => (.str (String.mk p.1), p.2))
      else if c = '-' then
        match r with
        | d :: r2 =>
          if isDigitCh d then
            let p := parseDigits r2 (d.toNat - 48)
            some (.num (-(p.1 : Int)), p.2)
          else none
        | [] => none
      else if isDigitCh c then
        let p := parseDigits r (c.toNat - 48)
        some (.num (p.1 : Int), p.2)
      else if c = '[' then
        match skipWs r with
        | [] => none
        | d :: r2 =>
          if d = ']' then some (.arrNil, r2)
          else parseItems f (d :: r2)
      else if c = lbrace then
        match skipWs r with
        | d :: r2 =>
          if d = rbrace then some (.objNil, r2)
          else parseMembers f (d :: r2)
        | [] => none
      else none

/-- Parse one-or-more array items up to and including the closing bracket. -/
def parseItems : Nat → List Char → Option (Json × List Char)
  | 0, _ => none
  | f + 1, cs =>
    match parseVal f cs with
    | none => none
    | some (j, rest) =>
      match skipWs rest with
      | [] => none
      | d :: r2 =>
        if d = ',' then (parseItems f r2).map (fun p => (.arrCons j p.1, p.2))
        else if d = ']' then some (.arrCons j .arrNil, r2)
        else none

/-- Parse one-or-more object members up to and including the closing brace. -/
def parseMembers : Nat → List Char → Option (Json × List Char)
  | 0, _ => none
  | f + 1, cs =>
    match skipWs cs with
    | [] => none
    | q :: r =>
      if q = '"' then
        match parseStrBody r with
        | none => none
        | some (k, rest) =>
          match skipWs rest with
          | [] => none
          | col :: r2 =>
            if col = ':' then
              match parseVal f r2 with
              | none => none
              | some (v, rest2) =>
                match skipWs rest2 with
                | [] => none
                | c :: r3 =>
                  if c = ',' then
                    (parseMembers f r3).map (fun p => (.objCons (String.mk k) v p.1, p.2))
                  else if c = rbrace then some (.objCons (String.mk k) v .objNil, r3)
                  else none
            else none
      else none

end

/-- Model of `serde_json::from_str::<Value>`: parse one value and require the
whole input to be consumed (up to trailing whitespace). -/
def Json.parse? (cs : List Char) : Option Json :=
  match parseVal (cs.length + 1) cs with
  | some (j, rest) => if (skipWs rest).isEmpty then some j else none
  | none => none

/-- Parser fuel sufficient for a value (an overapproximation of the nesting
the fueled parser walks through). -/
def fuelJ : Json → Nat
  | .arrCons h t => 1 + fuelJ h + fuelJ t
  | .objCons _ v t => 1 + fuelJ v + fuelJ t
  | _ => 1

/-! ## The probe event (`RawEvent` in `src/output/writer_jsonl.rs`) -/

/-- Model of `RawEvent`, the probe outcome record.  Field order matters: the
derived serde serializer emits fields in declaration order. -/
structure RawEvent where
  orig_url : String
  final_url : String
  status : Nat                      -- u16
  content_type : Option String
  server : Option String
  content_length : Option Nat       -- u64
  response_ms : Option Nat          -- u64
  tls_issuer : Option String
  is_graphql : Bool
  json_sample : Option Json
  score : Int                       -- i32
  notes : List String
deriving DecidableEq

/-! ## Scorer (`src/scoring/score.rs::score_event`) -/

/-- Direct translation of `score_event`. -/
def score_event (e : RawEvent) : Int :=
  let score : Int := 5
  -- High interest: 2xx + JSON
  let score :=
    if 200 ≤ e.status ∧ e.status < 300 then
      match e.content_type with
      | some ct =>
          if sContains ct "application/json" || sContains ct "application/graphql" then
            (1 : Int)
          else if sContains e.final_url "/api/" || sContains e.final_url "/v" then
            min score 2
          else score
      | none =>
          if e.json_sample.isSome then (1 : Int) else score
    else score
  -- Auth gated
  let score := if e.status = 401 ∨ e.status = 403 then min score 3 else score
  -- Redirects
  let score := if 300 ≤ e.status ∧ e.status < 400 then min score 4 else score
  -- 5xx
  let score := if 500 ≤ e.status then max 6 score else score
  -- Boosts for path keywords
  let path := sLower e.final_url
  let score :=
    if sContains path "token" || sContains path "auth" || sContains path "login"
        || sContains path "admin" then
      max 1 (score - 1)
    else score
  -- Penalize static assets
  if sEndsWith path ".css" || sEndsWith path ".woff" || sEndsWith path ".png"
      || sEndsWith path ".jpg" then
    99
  else score

/-- The static-asset test the scorer applies to the lowercased final URL. -/
def staticAsset (e : RawEvent) : Bool :=
  let path := sLower e.final_url
  sEndsWith path ".css" || sEndsWith path ".woff" || sEndsWith path ".png"
    || sEndsWith path ".jpg"

/-- A convenient event with every optional field empty. -/
def baseEvent : RawEvent :=
  { orig_url := "", final_url := "", status := 0, content_type := none,
    server := none, content_length := none, response_ms := none,
    tls_issuer := none, is_graphql := false, json_sample := none,
    score := 0, notes := [] }

/-! ## Serde (de)serialization of `RawEvent`

`RawEvent` derives `Serialize`/`Deserialize`; the derived serializer emits the
fields in declaration order, the derived deserializer accepts fields in any
order, errors on duplicate fields and on out-of-range numbers, ignores unknown
fields, and treats a missing or `null` `Option` field as `None`. -/

/-- Serialization of an `Option<String>` field. -/
def optStrJson : Option String → Json
  | none => .null
  | some s => .str s

/-- Serialization of an `Option<u64>` field. -/
def optNatJson : Option Nat → Json
  | none => .null
  | some n => .num n

/-- Serialization of the `Vec<String>` notes. -/
def notesJson : List String → Json
  | [] => .arrNil
  | s :: t => .arrCons (.str s) (notesJson t)

/-- The derived `Serialize` for `RawEvent` (fields in declaration order;
`None` as `null`, `Some(v)` as `v`). -/
def RawEvent.toJson (e : RawEvent) : Json :=
  .objCons "orig_url" (.str e.orig_url)
    (.objCons "final_url" (.str e.final_url)
    (.objCons "status" (.num e.status)
    (.objCons "content_type" (optStrJson e.content_type)
    (.objCons "server" (optStrJson e.server)
    (.objCons "content_length" (optNatJson e.content_length)
    (.objCons "response_ms" (optNatJson e.response_ms)
    (.objCons "tls_issuer" (optStrJson e.tls_issuer)
    (.objCons "is_graphql" (.bool e.is_graphql)
    (.objCons "json_sample" (match e.json_sample with | none => .null | some j => j)
    (.objCons "score" (.num e.score)
    (.objCons "notes" (notesJson e.notes) .objNil)))))))))))

/-- Deserialization of an `Option<String>` field value. -/
def jsonOptStr : Json → Option (Option String)
  | .null => some none
  | .str s => some (some s)
  | _ => none

/-- Deserialization of an `Option<u64>` field value. -/
def jsonOptNat : Json → Option (Option Nat)
  | .null => some none
  | .num n => if 0 ≤ n ∧ n < 2 ^ 64 then some (some n.toNat) else none
  | _ => none

/-- Deserialization of the notes array. -/
def jsonStrList : Json → Option (List String)
  | .arrNil => some []
  | .arrCons (.str s) t => (jsonStrList t).map (s :: ·)
  | _ => none

/-- Field slots filled by the derived `Deserialize` visitor while it walks the
map entries. -/
structure REBuilder where
  orig_url : Option String := none
  final_url : Option String := none
  status : Option Nat := none
  content_type : Option (Option String) := none
  server : Option (Option String) := none
  content_length : Option (Option Nat) := none
  response_ms : Option (Option Nat) := none
  tls_issuer : Option (Option String) := none
  is_graphql : Option Bool := none
  json_sample : Option (Option Json) := none
  score : Option Int := none
  notes : Option (List String) := none

/-- Process one map entry: fill the matching slot, error on a duplicate or a
type/range mismatch, skip unknown keys. -/
def feedField (b : REBuilder) (k : String) (v : Json) : Option REBuilder :=
  if k = "orig_url" then
    match b.orig_url, v with
    | none, .str s => some { b with orig_url := some s }
    | _, _ => none
  else if k = "final_url" then
    match b.final_url, v with
    | none, .str s => some { b with final_url := some s }
    | _, _ => none
  else if k = "status" then
    match b.status, v with
    | none, .num n => if 0 ≤ n ∧ n < 65536 then some { b with status := some n.toNat } else none
    | _, _ => none
  else if k = "content_type" then
    match b.content_type, jsonOptStr v with
    | none, some o => some { b with content_type := some o }
    | _, _ => none
  else if k = "server" then
    match b.server, jsonOptStr v with
    | none, some o => some { b with server := some o }
    | _, _ => none
  else if k = "content_length" then
    match b.content_length, jsonOptNat v with
    | none, some o => some { b with content_length := some o }
    | _, _ => none
  else if k = "response_ms" then
    match b.response_ms, jsonOptNat v with
    | none, some o => some { b with response_ms := some o }
    | _, _ => none
  else if k = "tls_issuer" then
    match b.tls_issuer, jsonOptStr v with
    | none, some o => some { b with tls_issuer := some o }
    | _, _ => none
  else if k = "is_graphql" then
    match b.is_graphql, v with
    | none, .bool bv => some { b with is_graphql := some bv }
    | _, _ => none
  else if k = "json_sample" then
    match b.json_sample, v with
    | none, .null => some { b with json_sample := some none }
    | none, w => some { b with json_sample := some (some w) }
    | _, _ => none
  else if k = "score" then
    match b.score, v with
    | none, .num n => if -(2 ^ 31) ≤ n ∧ n < 2 ^ 31 then some { b with score := some n } else none
    | _, _ => none
  else if k = "notes" then
    match b.notes with
    | none =>
      match jsonStrList v with
      | some ns => some { b with notes := some ns }
      | none => none
    | _ => none
  else some b

/-- Walk all map entries. -/
def collectFields : Json → REBuilder → Option REBuilder
  | .objNil, b => some b
  | .objCons k v t, b => (feedField b k v).bind (collectFields t)
  | _, _ => none

/-- Final assembly: non-`Option` fields are required, `Option` fields default
to `None` when the key was absent. -/
def finishEvent (b : REBuilder) : Option RawEvent :=
  match b.orig_url, b.final_url, b.status, b.is_graphql, b.score, b.notes with
  | some ou, some fu, some st, some ig, some sc, some ns =>
    some { orig_url := ou, final_url := fu, status := st,
           content_type := b.content_type.getD none,
           server := b.server.getD none,
           content_length := b.content_length.getD none,
           response_ms := b.response_ms.getD none,
           tls_issuer := b.tls_issuer.getD none,
           is_graphql := ig, json_sample := b.json_sample.getD none,
           score := sc, notes := ns }
  | _, _, _, _, _, _ => none

/-- The derived `Deserialize` for `RawEvent`. -/
def RawEvent.fromJson : Json → Option RawEvent
  | j@(.objNil) => (collectFields j {}).bind finishEvent
  | j@(.objCons _ _ _) => (collectFields j {}).bind finishEvent
  | _ => none

/-- Range constraints the Rust field types impose (`u16`, `u64`, `i32`),
plus well-formedness of the sample chain; every event the program itself
builds satisfies them. -/
def RawEvent.wf (e : RawEvent) : Prop :=
  e.status < 65536 ∧
  (∀ n, e.content_length = some n → n < 2 ^ 64) ∧
  (∀ n, e.response_ms = some n → n < 2 ^ 64) ∧
  -(2 ^ 31) ≤ e.score ∧ e.score < 2 ^ 31 ∧
  (∀ j, e.json_sample = some j → jsonWF j = true)

/-- Executable form of `RawEvent.wf`. -/
def RawEvent.wfb (e : RawEvent) : Bool :=
  decide (e.status < 65536) &&
  (match e.content_length with | some n => decide (n < 2 ^ 64) | none => true) &&
  (match e.response_ms with | some n => decide (n < 2 ^ 64) | none => true) &&
  decide (-(2 ^ 31) ≤ e.score) && decide (e.score < 2 ^ 31) &&
  (match e.json_sample with | some j => jsonWF j | none => true)

instance (e : RawEvent) : Decidable e.wf :=
  decidable_of_iff (e.wfb = true) (by
    unfold RawEvent.wfb RawEvent.wf
    cases e.content_length <;> cases e.response_ms <;> cases e.json_sample <;> simp <;> tauto)

/-- `serde` serializes `Some(Value::Null)` and `None` both as `null`, and
deserializes `null` back to `None`: a reload collapses `Some(Null)` samples. -/
def collapseNullSample (e : RawEvent) : RawEvent :=
  { e with json_sample := match e.json_sample with
                          | some .null => none
                          | x => x }

/-! ## JSONL writer and loader

`write_jsonl` (`src/output/writer_jsonl.rs:21-29`): one `serde_json::to_string`
line per event, each terminated by `\n` (modelled for a fresh file; the source
opens in append mode).  `read_jsonl` (`src/utils.rs:11-20`): iterate
`str::lines`, skip lines that are empty after trimming, `serde_json::from_str`
each remaining line, aborting on the first parse error (`?`).  File contents
are modelled as character sequences. -/

/-- The JSONL file produced for a list of events. -/
def write_jsonl (items : List RawEvent) : List Char :=
  (items.map (fun e => renderChars (RawEvent.toJson e) ++ ['\n'])).flatten

/-- Split on `'\n'`, keeping a (possibly empty) final fragment. -/
def splitLines : List Char → List (List Char)
  | [] => [[]]
  | c :: r =>
    if c = '\n' then [] :: splitLines r
    else
      match splitLines r with
      | [] => [[c]]
      | l :: ls => (c :: l) :: ls

/-- Drop one trailing `'\r'`, as `str::lines` does per line. -/
def stripCR (l : List Char) : List Char :=
  match l.reverse with
  | c :: t => if c = '\r' then t.reverse else l
  | [] => l

/-- Model of `str::lines`: split on `'\n'`, drop the trailing empty fragment
a final newline produces, strip one `'\r'` per line. -/
def rustLines (cs : List Char) : List (List Char) :=
  let parts := splitLines cs
  (if parts.getLast? = some [] then parts.dropLast else parts).map stripCR

/-- Parse the kept lines, skipping whitespace-only ones; `none` on the first
line `serde_json::from_str` rejects. -/
def readLinesLoop : List (List Char) → Option (List RawEvent)
  | [] => some []
  | l :: ls =>
    if l.all Char.isWhitespace then readLinesLoop ls
    else
      match Json.parse? l with
      | none => none
      | some j =>
        match RawEvent.fromJson j with
        | none => none
        | some e => (readLinesLoop ls).map (e :: ·)

/-- Model of `read_jsonl` on file contents. -/
def read_jsonl (cs : List Char) : Option (List RawEvent) :=
  readLinesLoop (rustLines cs)

/-! ## Tabular writers

`write_csv` (`src/output/writer_csv.rs:6-28`) uses the `csv` crate: fields are
comma-separated, quoted (with quote doubling) exactly when they contain a
comma, quote, CR or LF, records terminated by `\n`, with a fixed 11-column
header record first.  `spawn_csv_writer` (`src/output/async_csv.rs:9-56`)
formats its own lines: a different fixed 8-column header, string fields always
quoted, numeric fields bare. -/

/-- Double every quote character (CSV quote escaping, and the `q` helper's
`replace('"', "\"\"")` in `async_csv.rs`). -/
def dupQuotes : List Char → List Char
  | [] => []
  | c :: r => if c = '"' then '"' :: '"' :: dupQuotes r else c :: dupQuotes r

/-- Does the `csv` crate's default `QuoteStyle::Necessary` quote this field? -/
def csvNeedsQuote (s : String) : Bool :=
  s.toList.any (fun c => c = ',' || c = '"' || c = '\n' || c = '\r')

/-- One CSV field as the `csv` crate writes it. -/
def csvField (s : String) : String :=
  if csvNeedsQuote s then String.mk ('"' :: (dupQuotes s.toList ++ ['"'])) else s

/-- One CSV record as the `csv` crate writes it. -/
def csvRecord (fs : List String) : String :=
  String.intercalate "," (fs.map csvField) ++ "\n"

/-- The header record of `write_csv`. -/
def csvHeaderFields : List String :=
  ["score", "status", "final_url", "orig_url", "content_type", "server",
   "content_length", "response_ms", "tls_issuer", "flags", "notes"]

/-- One event's row fields, in `write_csv`'s column order. -/
def csvRow (e : RawEvent) : List String :=
  [toString e.score, toString e.status, e.final_url, e.orig_url,
   e.content_type.getD "", e.server.getD "",
   (e.content_length.map toString).getD "", (e.response_ms.map toString).getD "",
   e.tls_issuer.getD "", if e.is_graphql then "graphql" else "",
   String.intercalate ", " e.notes]

/-- The whole sorted-CSV artifact `write_csv` produces. -/
def write_csv (items : List RawEvent) : String :=
  csvRecord csvHeaderFields ++ String.join (items.map (fun e => csvRecord (csvRow e)))

/-- The `q` quoting helper of `spawn_csv_writer`: always quote, double inner
quotes. -/
def asyncQ (s : String) : String := String.mk ('"' :: (dupQuotes s.toList ++ ['"']))

/-- The header line `spawn_csv_writer` writes on opening the stream CSV. -/
def async_csv_header : String :=
  "orig_url,final_url,status,content_type,response_ms,score,is_graphql,notes\n"

/-- One event's line as `spawn_csv_writer` formats it. -/
def async_csv_row (ev : RawEvent) : String :=
  let content_type := ev.content_type.getD ""
  let notes := String.intercalate ";" ev.notes
  let is_graphql := if ev.is_graphql then "1" else "0"
  let response_ms := (ev.response_ms.map toString).getD ""
  let status := toString ev.status
  let content_type_field := if content_type = "" then "" else asyncQ content_type
  asyncQ ev.orig_url ++ "," ++ asyncQ ev.final_url ++ "," ++ status ++ "," ++
    content_type_field ++ "," ++ response_ms ++ "," ++ toString ev.score ++ "," ++
    is_graphql ++ "," ++ asyncQ notes ++ "\n"

/-- The stream-CSV artifact `spawn_csv_writer` produces for a list of received
events. -/
def spawn_csv_writer_output (items : List RawEvent) : String :=
  async_csv_header ++ String.join (items.map async_csv_row)

/-! ## Prober (`src/probe/http_probe.rs`) -/

/-- What one HTTP request observes when it succeeds at the network level. -/
structure HttpResp where
  status : Nat                    -- u16
  content_type : Option String
  server : Option String
  content_length : Option Nat
  body : Option (List Char)       -- GET body bytes when readable as UTF-8
deriving DecidableEq

/-- The network-level outcome of the two requests a probe may issue: `none`
means the request errored or timed out. -/
structure NetOutcome where
  head : Option HttpResp
  get : Option HttpResp
deriving DecidableEq

/-- Body handling of the partial GET (`http_probe.rs:98-110`): take at most
4096 bytes, try a JSON parse; on success flag GraphQL-style `data`/`errors`
keys, on failure keep a 200-byte `_sample` object. -/
def bodySample (body : Option (List Char)) : Bool × Option Json :=
  match body with
  | some text =>
    let slice := text.take 4096
    match Json.parse? slice with
    | some j => ((j.get "data").isSome || (j.get "errors").isSome, some j)
    | none =>
      (false, some (.objCons "_sample" (.str (String.mk (slice.take 200))) .objNil))
  | none => (false, none)

/-- Model of `probe_url_inner` (`http_probe.rs:58-140`).  It is total: a
network failure of both requests still yields an event (status 0), never an
error.  `elapsedMs` stands for the measured wall time. -/
def probe_url_inner (url : String) (net : NetOutcome) (elapsedMs : Nat) : RawEvent :=
  let headState : Nat × Option String × Option String × Option Nat :=
    match net.head with
    | some r => (r.status, r.content_type, r.server, r.content_length)
    | none => (0, none, none, none)
  let status := headState.1
  let content_type := headState.2.1
  let serverH := headState.2.2.1
  let content_length := headState.2.2.2
  let full :
      Nat × Option String × Option String × Option Nat × Bool × Option Json :=
    if content_type.isNone ∨ status = 405 ∨ status = 501 ∨ status = 0 then
      match net.get with
      | some r =>
        let bs := bodySample r.body
        (r.status, r.content_type, r.server, r.content_length, bs.1, bs.2)
      | none => (status, content_type, serverH, content_length, false, none)
    else (status, content_type, serverH, content_length, false, none)
  let notes :=
    match full.2.2.1 with
    | some s => if sContains (sLower s) "cloudflare" then ["waf:cloudflare"] else []
    | none => []
  { orig_url := url, final_url := url, status := full.1,
    content_type := full.2.1, server := full.2.2.1,
    content_length := full.2.2.2.1, response_ms := some elapsedMs,
    tls_issuer := none, is_graphql := full.2.2.2.2.1,
    json_sample := full.2.2.2.2.2, score := 0, notes := notes }

/-- What one run of `probe_with_retries` did: its result (`none` models the
`Err` return), the backoff delays it slept in order, the cooldown signals it
sent to the throttle, and how many attempts it made. -/
structure ProbeResult where
  result : Option RawEvent
  slept : List Nat
  cooldowns : List (String × Nat × Nat)
  attempts : Nat
deriving DecidableEq

/-- `u64::saturating_mul(2)`. -/
def u64SatMul2 (x : Nat) : Nat := min (x * 2) (2 ^ 64 - 1)

/-- The effective attempt limit: `min(max(1, retries), 10)`
(`http_probe.rs:27`). -/
def maxRetriesOf (retries : Nat) : Nat := min (max 1 retries) 10

/-- The retry loop of `probe_with_retries` (`http_probe.rs:29-52`),
parametric in the per-attempt outcome `inner` (attempt numbers start at 1;
`none` models an `Err` from `probe_url_inner`).  `remaining` counts the
attempts still allowed after the current one. -/
def retryLoop (inner : Nat → Option RawEvent) (throttle : Bool) (host : String)
    (aggressive : Bool) (backoffMaxMs : Nat) :
    Nat → Nat → Nat → ProbeResult
  | attempt, remaining, backoff =>
    match inner attempt with
    | some ev =>
      let cds :=
        if (ev.status = 429 ∨ (500 ≤ ev.status ∧ ev.status < 600)) ∧ aggressive = false then
          if throttle = true ∧ host ≠ "" then [(host, 1, 30)] else []
        else []
      { result := some ev, slept := [], cooldowns := cds, attempts := 1 }
    | none =>
      match remaining with
      | 0 => { result := none, slept := [], cooldowns := [], attempts := 1 }
      | r + 1 =>
        let wait := min backoff backoffMaxMs
        let rest := retryLoop inner throttle host aggressive backoffMaxMs
          (attempt + 1) r (u64SatMul2 backoff)
        { result := rest.result, slept := wait :: rest.slept,
          cooldowns := rest.cooldowns, attempts := rest.attempts + 1 }

/-- Model of `probe_with_retries` (`http_probe.rs:26-56`). -/
def probe_with_retries (inner : Nat → Option RawEvent) (throttle : Bool)
    (host : String) (retries : Nat) (backoffInitialMs backoffMaxMs : Nat)
    (aggressive : Bool) : ProbeResult :=
  retryLoop inner throttle host aggressive backoffMaxMs
    1 (maxRetriesOf retries - 1) (max backoffInitialMs 1)

/-- The per-attempt outcome of the real composition `probe_with_retries ∘
probe_url_inner`: always `some`, because `probe_url_inner` is total. -/
def innerOf (url : String) (net : Nat → NetOutcome) (elapsed : Nat → Nat)
    (attempt : Nat) : Option RawEvent :=
  some (probe_url_inner url (net attempt) (elapsed attempt))

/-- Model of the orchestrator worker's handling of a prober result
(`src/runner.rs:418-497`): an `Ok` outcome is scored (then annotated) and sent
to both sinks; an `Err` is logged and dropped. -/
def runnerEmits (r : Option RawEvent) : Option RawEvent :=
  r.map (fun ev => { ev with score := score_event ev })

/-! ## Admission throttle (`src/probe/throttle.rs`)

A small interleaving model of `Throttle::acquire`.  The `DashMap` provides
atomic `get` and `insert` operations, but `get_host_semaphore`
(`throttle.rs:48-56`) performs them as two separate steps with the semaphore
construction in between, and `acquire` (`throttle.rs:58-64`) then acquires the
global and host semaphores in two further steps.  Each worker is a task
running that code for one host; a schedule picks which worker takes its next
atomic step. -/

/-- A Tokio semaphore: permits outstanding are `cap - avail`. -/
structure Sem where
  cap : Nat
  avail : Nat
deriving DecidableEq

/-- Association-list lookup (model of `DashMap::get`). -/
def mapGet : List (String × Nat) → String → Option Nat
  | [], _ => none
  | (k, v) :: t, h => if k = h then some v else mapGet t h

/-- Association-list insert-or-replace (model of `DashMap::insert`). -/
def mapInsert : List (String × Nat) → String → Nat → List (String × Nat)
  | [], h, i => [(h, i)]
  | (k, v) :: t, h, i => if k = h then (h, i) :: t else (k, v) :: mapInsert t h i

/-- Shared throttle state: an arena of host semaphores (a slot per
`Arc::new(Semaphore::new(...))` the code executed), the host map pointing into
it, the global semaphore, and the configured default per-host limit. -/
structure ThrottleState where
  sems : List Sem
  hostMap : List (String × Nat)
  globalSem : Sem
  defaultPerHost : Nat
deriving DecidableEq

/-- Program counter of one worker inside `acquire`. -/
inductive WorkerPc where
  | lookupMap   -- about to run the `per_host.get(host)` check
  | createSem   -- get missed: about to create and insert a new semaphore
  | acqGlobal   -- holds an Arc to its semaphore; acquiring the global permit
  | acqHost     -- holds the global permit; acquiring the host permit
  | holding     -- holds both permits
deriving DecidableEq

/-- One worker task calling `Throttle::acquire(host)`. -/
structure Worker where
  host : String
  pc : WorkerPc
  semIdx : Option Nat  -- the Arc<Semaphore> this worker captured
deriving DecidableEq

/-- One atomic step of one worker, following `get_host_semaphore`/`acquire`.
A worker at an unavailable semaphore stays put (it suspends). -/
def stepWorker (st : ThrottleState) (w : Worker) : ThrottleState × Worker :=
  match w.pc with
  | .lookupMap =>
    match mapGet st.hostMap w.host with
    | some i => (st, { w with semIdx := some i, pc := .acqGlobal })
    | none => (st, { w with pc := .createSem })
  | .createSem =>
    let idx := st.sems.length
    ({ st with
        sems := st.sems ++ [⟨st.defaultPerHost, st.defaultPerHost⟩],
        hostMap := mapInsert st.hostMap w.host idx },
     { w with semIdx := some idx, pc := .acqGlobal })
  | .acqGlobal =>
    if 0 < st.globalSem.avail then
      ({ st with globalSem := ⟨st.globalSem.cap, st.globalSem.avail - 1⟩ },
       { w with pc := .acqHost })
    else (st, w)
  | .acqHost =>
    match w.semIdx with
    | some i =>
      let s := st.sems.getD i ⟨0, 0⟩
      if 0 < s.avail then
        ({ st with sems := st.sems.set i ⟨s.cap, s.avail - 1⟩ },
         { w with pc := .holding })
      else (st, w)
    | none => (st, w)
  | .holding => (st, w)

/-- Run a schedule: each entry names the worker that takes the next step. -/
def runSched : ThrottleState → List Worker → List Nat → ThrottleState × List Worker
  | st, ws, [] => (st, ws)
  | st, ws, i :: sched =>
    match ws.get? i with
    | some w =>
      let r := stepWorker st w
      runSched r.1 (ws.set i r.2) sched
    | none => runSched st ws sched

/-- Number of host permits currently held by workers probing `h`. -/
def heldForHost (ws : List Worker) (h : String) : Nat :=
  (ws.filter (fun w => w.host == h && w.pc == WorkerPc.holding)).length

/-- The host's current capacity: the capacity of the semaphore its map entry
points to, or the default when the host is unseen. -/
def hostCapacity (st : ThrottleState) (h : String) : Nat :=
  match mapGet st.hostMap h with
  | some i => (st.sems.getD i ⟨0, 0⟩).cap
  | none => st.defaultPerHost

/-- The per-host admission-safety property the spec states. -/
def HostSafe (st : ThrottleState) (ws : List Worker) : Prop :=
  ∀ h, heldForHost ws h ≤ hostCapacity st h

/-- Fresh throttle as `Throttle::new(10, 1)` builds it: global limit 10,
default per-host limit 1, no hosts seen. -/
def initThrottle : ThrottleState :=
  { sems := [], hostMap := [], globalSem := ⟨10, 10⟩, defaultPerHost := 1 }

/-- Two workers both about to probe host `"h"`. -/
def twoWorkers : List Worker :=
  [{ host := "h", pc := .lookupMap, semIdx := none },
   { host := "h", pc := .lookupMap, semIdx := none }]

/-- The racing schedule: both workers miss the map, both create-and-insert a
semaphore (the second insert overwrites the first), then each acquires from
the semaphore it captured. -/
def raceSched : List Nat := [0, 1, 0, 1, 0, 1, 0, 1]

/-! ## Orchestrator timeouts (`src/runner.rs`) -/

/-- `src/runner.rs:372`: the per-request timeout handed to `probe_url`
(seconds): 3 in lite mode, the `timeout` setting otherwise. -/
def probe_timeout (lite : Bool) (timeout : Nat) : Nat :=
  if lite then 3 else timeout

/-- `src/runner.rs:504`: the global scan deadline wrapping the probe stream
(seconds) is the `timeout` setting itself. -/
def scan_timeout (timeout : Nat) : Nat := timeout

/-! ## Concrete inputs used by counterexamples and witnesses -/

/-- A network behavior in which both the HEAD and the GET request fail at the
network level (connection error, DNS failure or timeout). -/
def failNet : NetOutcome := { head := none, get := none }

/-- The probe of a candidate whose every request attempt fails at the network
level, with throttle present, `retries = 3`, backoff 200/5000 ms, as the
runner calls it (`runner.rs:417`). -/
def unreachableProbe : ProbeResult :=
  probe_with_retries (innerOf "http://unreachable.example/" (fun _ => failNet) (fun _ => 0))
    true "unreachable.example" 3 200 5000 false

/-- The probe of the same unreachable candidate with `retries` configured to
0. -/
def zeroRetryProbe : ProbeResult :=
  probe_with_retries (innerOf "http://unreachable.example/" (fun _ => failNet) (fun _ => 0))
    true "unreachable.example" 0 200 5000 false

/-- 2xx event with a non-JSON content type and a successfully parsed JSON
body sample. -/
def c6ex : RawEvent :=
  { baseEvent with
    status := 200
    content_type := some "text/html"
    json_sample := some Json.objNil
    final_url := "https://host.example/page"
    orig_url := "https://host.example/page" }

/-- 2xx JSON event used to witness the top-tier rule. -/
def c6wit : RawEvent :=
  { baseEvent with
    status := 200
    content_type := some "application/json"
    final_url := "https://host.example/data"
    orig_url := "https://host.example/data" }

/-- A static-asset event: 200 with an auth keyword in the path and a `.css`
suffix. -/
def c7wit : RawEvent :=
  { baseEvent with
    status := 200
    content_type := some "text/css"
    final_url := "https://host.example/auth/login.css"
    orig_url := "https://host.example/auth/login.css" }

/-- An event whose JSON sample is `Some(Value::Null)` (produced by a body
consisting of the literal `null`). -/
def c8ex : RawEvent := { baseEvent with json_sample := some Json.null }

/-- An event exercising every field for the round-trip witness. -/
def c8wit : RawEvent :=
  { orig_url := "https://h.example/api/v1?q=a,b"
    final_url := "https://h.example/api/v1"
    status := 200
    content_type := some "application/json; charset=utf-8"
    server := some "cloudflare"
    content_length := some 123
    response_ms := some 45
    tls_issuer := none
    is_graphql := true
    json_sample := some (Json.objCons "data" (.arrCons (.num (-1)) .arrNil) .objNil)
    score := 1
    notes := ["waf:cloudflare", "key:data"] }

/-- A 429 response outcome, as a host under pressure returns it. -/
def c5ev : RawEvent :=
  { baseEvent with
    status := 429
    orig_url := "https://api.example.com/x"
    final_url := "https://api.example.com/x" }


/-! # Helper lemmas -/

/-- A list starts with itself, whatever follows. -/
theorem leadsWith_append (a b : List Char) : leadsWith (a ++ b) a = true := by
  induction a with
  | nil => cases b <;> rfl
  | cons c t ih => simp [leadsWith, ih]

/-- A string starts with itself, whatever follows. -/
theorem sStartsWith_append (p rest : String) : sStartsWith (p ++ rest) p = true := by
  unfold sStartsWith
  have h : (p ++ rest).toList = p.toList ++ rest.toList := rfl
  rw [h]
  exact leadsWith_append p.toList rest.toList

/-- Unfolding: a successful attempt ends the loop at once, with the cooldown
signal computed from the outcome. -/
theorem retryLoop_ok (inner : Nat → Option RawEvent) (th : Bool) (host : String)
    (ag : Bool) (bmax attempt remaining backoff : Nat) (ev : RawEvent)
    (h : inner attempt = some ev) :
    retryLoop inner th host ag bmax attempt remaining backoff =
      { result := some ev, slept := [],
        cooldowns :=
          if (ev.status = 429 ∨ (500 ≤ ev.status ∧ ev.status < 600)) ∧ ag = false then
            if th = true ∧ host ≠ "" then [(host, 1, 30)] else []
          else [],
        attempts := 1 } := by
  cases remaining <;> simp [retryLoop, h]

/-- Unfolding: a failed attempt with no remaining budget is the terminal
error. -/
theorem retryLoop_err_zero (inner : Nat → Option RawEvent) (th : Bool) (host : String)
    (ag : Bool) (bmax attempt backoff : Nat) (h : inner attempt = none) :
    retryLoop inner th host ag bmax attempt 0 backoff =
      { result := none, slept := [], cooldowns := [], attempts := 1 } := by
  simp [retryLoop, h]

/-- Unfolding: a failed attempt with remaining budget sleeps the capped
backoff and retries with the doubled backoff. -/
theorem retryLoop_err_succ (inner : Nat → Option RawEvent) (th : Bool) (host : String)
    (ag : Bool) (bmax attempt r backoff : Nat) (h : inner attempt = none) :
    retryLoop inner th host ag bmax attempt (r + 1) backoff =
      { result := (retryLoop inner th host ag bmax (attempt + 1) r (u64SatMul2 backoff)).result,
        slept := min backoff bmax ::
          (retryLoop inner th host ag bmax (attempt + 1) r (u64SatMul2 backoff)).slept,
        cooldowns := (retryLoop inner th host ag bmax (attempt + 1) r (u64SatMul2 backoff)).cooldowns,
        attempts := (retryLoop inner th host ag bmax (attempt + 1) r (u64SatMul2 backoff)).attempts + 1 } := by
  simp [retryLoop, h]

/-- Attempt-count bounds of the retry loop, for any per-attempt behavior. -/
theorem retryLoop_attempts (inner : Nat → Option RawEvent) (th : Bool) (host : String)
    (ag : Bool) (bmax : Nat) :
    ∀ remaining attempt backoff,
      1 ≤ (retryLoop inner th host ag bmax attempt remaining backoff).attempts ∧
      (retryLoop inner th host ag bmax attempt remaining backoff).attempts ≤ remaining + 1 := by
  intro remaining
  induction remaining with
  | zero =>
    intro attempt backoff
    cases h : inner attempt <;> simp [retryLoop, h]
  | succ r ih =>
    intro attempt backoff
    cases h : inner attempt with
    | some ev => simp [retryLoop, h]
    | none =>
      have hr := ih (attempt + 1) (u64SatMul2 backoff)
      simp only [retryLoop, h]
      simp only [ProbeResult.mk.injEq] at *
      constructor <;> simp <;> omega

/-- The slept delays of the retry loop form a monotone, capped sequence. -/
theorem retryLoop_slept (inner : Nat → Option RawEvent) (th : Bool) (host : String)
    (ag : Bool) (bmax : Nat) :
    ∀ remaining attempt backoff, backoff ≤ 2 ^ 64 - 1 →
      List.Chain' (· ≤ ·) (retryLoop inner th host ag bmax attempt remaining backoff).slept ∧
      (∀ d ∈ (retryLoop inner th host ag bmax attempt remaining backoff).slept, d ≤ bmax) ∧
      (∀ d ∈ (retryLoop inner th host ag bmax attempt remaining backoff).slept,
        min backoff bmax ≤ d) := by
  intro remaining
  induction remaining with
  | zero =>
    intro attempt backoff _
    cases h : inner attempt <;> simp [retryLoop, h]
  | succ r ih =>
    intro attempt backoff hb
    cases h : inner attempt with
    | some ev => simp [retryLoop, h]
    | none =>
      obtain ⟨ih1, ih2, ih3⟩ := ih (attempt + 1) (u64SatMul2 backoff)
        (by unfold u64SatMul2; omega)
      have hmono : min backoff bmax ≤ min (u64SatMul2 backoff) bmax := by
        unfold u64SatMul2; omega
      simp only [retryLoop, h]
      refine ⟨List.chain'_cons'.mpr ⟨fun y hy => ?_, ih1⟩, ?_, ?_⟩
      · exact le_trans hmono (ih3 y (List.mem_of_mem_head? hy))
      · intro d hd
        rcases List.mem_cons.mp hd with h1 | h1
        · omega
        · exact ih2 d h1
      · intro d hd
        rcases List.mem_cons.mp hd with h1 | h1
        · omega
        · exact le_trans hmono (ih3 d h1)

/-- The retry loop signals exactly one `(host, 1, 30)` cooldown whenever it
returns an outcome with a distress status, aggressive mode off, a throttle
present and a known host. -/
theorem retryLoop_cooldown (inner : Nat → Option RawEvent) (host : String) (bmax : Nat) :
    ∀ remaining attempt backoff ev,
      (retryLoop inner true host false bmax attempt remaining backoff).result = some ev →
      (ev.status = 429 ∨ (500 ≤ ev.status ∧ ev.status < 600)) →
      host ≠ "" →
      (retryLoop inner true host false bmax attempt remaining backoff).cooldowns
        = [(host, 1, 30)] := by
  intro remaining
  induction remaining with
  | zero =>
    intro attempt backoff ev hres hstat hhost
    cases h : inner attempt with
    | some ev' =>
      rw [retryLoop_ok inner true host false bmax attempt 0 backoff ev' h] at hres ⊢
      simp only [Option.some.injEq] at hres
      subst hres
      simp [hstat, hhost]
    | none =>
      rw [retryLoop_err_zero inner true host false bmax attempt backoff h] at hres
      simp at hres
  | succ r ih =>
    intro attempt backoff ev hres hstat hhost
    cases h : inner attempt with
    | some ev' =>
      rw [retryLoop_ok inner true host false bmax attempt (r + 1) backoff ev' h] at hres ⊢
      simp only [Option.some.injEq] at hres
      subst hres
      simp [hstat, hhost]
    | none =>
      rw [retryLoop_err_succ inner true host false bmax attempt r backoff h] at hres ⊢
      exact ih (attempt + 1) (u64SatMul2 backoff) ev hres hstat hhost

/-! # Claim theorems -/

/-- C1 (counterexample): a candidate whose HEAD and GET both fail at the
network level is not retried (no sleeps, one attempt), yields a `ProbeOutcome`
with status 0 rather than a terminal error, and that outcome is scored and
forwarded to the sinks by the runner. -/
theorem probe_unreachable_not_retried_cex :
    unreachableProbe.slept = [] ∧
    unreachableProbe.attempts = 1 ∧
    unreachableProbe.result = some (probe_url_inner "http://unreachable.example/" failNet 0) ∧
    (unreachableProbe.result.map (fun e => e.status)) = some 0 ∧
    (runnerEmits unreachableProbe.result).isSome = true := by
  decide

/-- C1 (amended): `probe_url_inner` is total — a network-level failure of both
requests still produces an outcome (status 0 when nothing answered), so the
composed `probe_with_retries` over the real prober always succeeds on the
first attempt: no backoff sleep ever happens, the error path of the retry
loop is unreachable, and every candidate produces an outcome that is forwarded
to the sinks. -/
theorem probe_url_network_failure_terminal (url : String) (net : Nat → NetOutcome)
    (elapsed : Nat → Nat) (th : Bool) (host : String) (retries b0 bmax : Nat) (ag : Bool) :
    (probe_with_retries (innerOf url net elapsed) th host retries b0 bmax ag).result
        = some (probe_url_inner url (net 1) (elapsed 1)) ∧
    (probe_with_retries (innerOf url net elapsed) th host retries b0 bmax ag).slept = [] ∧
    (probe_with_retries (innerOf url net elapsed) th host retries b0 bmax ag).attempts = 1 := by
  unfold probe_with_retries
  rw [retryLoop_ok (innerOf url net elapsed) th host ag bmax 1 (maxRetriesOf retries - 1)
    (max b0 1) (probe_url_inner url (net 1) (elapsed 1)) rfl]
  exact ⟨rfl, rfl, rfl⟩

/-- C2 (code_bug): two workers racing through `get_host_semaphore` for a
previously-unseen host can each create and then acquire a different semaphore
(the second `DashMap::insert` overwrites the first), so both hold a host
permit at once while the host's current capacity is 1: the admission-safety
invariant is violated. -/
theorem throttle_double_create_leak :
    heldForHost (runSched initThrottle twoWorkers raceSched).2 "h" = 2 ∧
    hostCapacity (runSched initThrottle twoWorkers raceSched).1 "h" = 1 ∧
    ¬ HostSafe (runSched initThrottle twoWorkers raceSched).1
      (runSched initThrottle twoWorkers raceSched).2 := by
  refine ⟨by decide, by decide, fun hs => ?_⟩
  exact absurd (hs "h") (by decide)

/-- C3 (counterexample): with `retries` configured to 0, the probe still makes
1 attempt, exceeding `min(configured_retries, 10) = 0`. -/
theorem retry_bound_zero_retries_cex :
    zeroRetryProbe.attempts = 1 ∧ ¬ (zeroRetryProbe.attempts ≤ min 0 10) := by
  decide

/-- C3 (amended): for every candidate behavior and configuration, the number
of probe attempts is at least 1 and at most `min(max(1, configured_retries),
10)`. -/
theorem retry_attempt_bounds (inner : Nat → Option RawEvent) (th : Bool) (host : String)
    (retries b0 bmax : Nat) (ag : Bool) :
    1 ≤ (probe_with_retries inner th host retries b0 bmax ag).attempts ∧
    (probe_with_retries inner th host retries b0 bmax ag).attempts
      ≤ min (max 1 retries) 10 := by
  obtain ⟨h1, h2⟩ := retryLoop_attempts inner th host ag bmax (maxRetriesOf retries - 1)
    1 (max b0 1)
  unfold probe_with_retries
  refine ⟨h1, le_trans h2 ?_⟩
  unfold maxRetriesOf
  omega

/-- C4 (confirmed): within one candidate's retry sequence, the slept backoff
delays are monotonically non-decreasing and each is at most `backoff_max`. -/
theorem backoff_monotone_capped (inner : Nat → Option RawEvent) (th : Bool) (host : String)
    (retries b0 bmax : Nat) (ag : Bool) (hb : b0 < 2 ^ 64) :
    List.Chain' (· ≤ ·) (probe_with_retries inner th host retries b0 bmax ag).slept ∧
    ∀ d ∈ (probe_with_retries inner th host retries b0 bmax ag).slept, d ≤ bmax := by
  obtain ⟨h1, h2, _⟩ := retryLoop_slept inner th host ag bmax (maxRetriesOf retries - 1)
    1 (max b0 1) (by omega)
  exact ⟨h1, h2⟩

/-- C4 (witness): a concrete always-failing candidate with retries 3, backoff
200/5000 ms sleeps a monotone capped sequence. -/
theorem backoff_monotone_capped_witness :
    List.Chain' (· ≤ ·)
      (probe_with_retries (fun _ => none) true "h.example" 3 200 5000 false).slept ∧
    ∀ d ∈ (probe_with_retries (fun _ => none) true "h.example" 3 200 5000 false).slept,
      d ≤ 5000 :=
  backoff_monotone_capped (fun _ => none) true "h.example" 3 200 5000 false (by decide)

/-- C5 (confirmed): whenever the probe returns a successful outcome whose
status is 429 or 5xx, aggressive mode is off, a throttle is present and the
host is known, the prober signals exactly the cooldown `(host, 1, 30s)` — and
the outcome is still returned as a success. -/
theorem cooldown_on_distress (inner : Nat → Option RawEvent) (host : String)
    (retries b0 bmax : Nat) (ev : RawEvent)
    (hres : (probe_with_retries inner true host retries b0 bmax false).result = some ev)
    (hstat : ev.status = 429 ∨ (500 ≤ ev.status ∧ ev.status < 600))
    (hhost : host ≠ "") :
    (probe_with_retries inner true host retries b0 bmax false).cooldowns = [(host, 1, 30)] ∧
    (probe_with_retries inner true host retries b0 bmax false).result = some ev := by
  unfold probe_with_retries at *
  exact ⟨retryLoop_cooldown inner host bmax (maxRetriesOf retries - 1) 1 (max b0 1)
    ev hres hstat hhost, hres⟩

/-- C5 (witness): a candidate answering 429 on a known host triggers the
cooldown `("api.example.com", 1, 30)` and still yields the outcome. -/
theorem cooldown_on_distress_witness :
    (probe_with_retries (fun _ => some c5ev) true "api.example.com" 3 200 5000 false).cooldowns
      = [("api.example.com", 1, 30)] ∧
    (probe_with_retries (fun _ => some c5ev) true "api.example.com" 3 200 5000 false).result
      = some c5ev :=
  cooldown_on_distress (fun _ => some c5ev) "api.example.com" 3 200 5000 c5ev
    (by decide) (by decide) (by decide)

/-- C6 (counterexample): a 2xx outcome that carries a successfully parsed JSON
body sample but a non-JSON content type does not get the top-tier score 1 (it
scores 5): the JSON-sample route only applies when the content type is
absent. -/
theorem score_json_sample_not_top_cex :
    200 ≤ c6ex.status ∧ c6ex.status < 300 ∧ c6ex.json_sample.isSome = true ∧
    score_event c6ex ≠ 1 := by
  decide

/-- C6 (amended): a 2xx outcome scores the top tier 1 exactly via a JSON-like
content type, or via a parsed JSON sample when no content type is present —
and only as long as the static-asset rule does not apply (that rule overrides
everything with 99). -/
theorem score_event_top_tier (e : RawEvent)
    (h2 : 200 ≤ e.status) (h3 : e.status < 300)
    (hj : (∃ ct, e.content_type = some ct ∧
            (sContains ct "application/json" || sContains ct "application/graphql") = true)
          ∨ (e.content_type = none ∧ e.json_sample.isSome = true))
    (hs : staticAsset e = false) :
    score_event e = 1 := by
  unfold staticAsset at hs
  unfold score_event
  have h401 : ¬(e.status = 401 ∨ e.status = 403) := by omega
  have h3xx : ¬(300 ≤ e.status ∧ e.status < 400) := by omega
  have h5xx : ¬(500 ≤ e.status) := by omega
  rcases hj with ⟨ct, hct, hjl⟩ | ⟨hct, hjs⟩
  · simp [hct, hjl, h2, h3, h401, h3xx, h5xx, hs]
  · simp [hct, hjs, h2, h3, h401, h3xx, h5xx, hs]

/-- C6 (witness): a 2xx outcome with content type `application/json` scores
1. -/
theorem score_event_top_tier_witness :
    score_event c6wit = 1 :=
  score_event_top_tier c6wit (by decide) (by decide)
    (Or.inl ⟨"application/json", rfl, by decide⟩) (by decide)

/-- C7 (confirmed): an outcome whose lowercased final URL ends in one of the
static-asset extensions (`.css`, `.woff`, `.png`, `.jpg`) is forced to the
lowest priority 99, whatever its status and whatever the other rules said. -/
theorem score_event_static_asset_floor (e : RawEvent) (h : staticAsset e = true) :
    score_event e = 99 := by
  unfold staticAsset at h
  unfold score_event
  simp [h]

/-- C7 (witness): a 200 response at `/auth/login.css` — despite the 2xx status
and the auth keyword — scores 99. -/
theorem score_event_static_asset_floor_witness :
    staticAsset c7wit = true ∧ score_event c7wit = 99 :=
  ⟨by decide, score_event_static_asset_floor c7wit (by decide)⟩

/-- C9 (counterexample): the streaming tabular artifact produced for every
scan starts with a different, 8-column header, not the fixed 11-column
`score,status,...` header. -/
theorem stream_csv_header_cex :
    spawn_csv_writer_output [] =
      "orig_url,final_url,status,content_type,response_ms,score,is_graphql,notes
" ∧
    sStartsWith (spawn_csv_writer_output [])
      "score,status,final_url,orig_url,content_type,server,content_length,response_ms,tls_issuer,flags,notes
"
      = false := by
  decide

/-- C9 (amended): the end-of-scan sorted tabular artifact (`write_csv`) begins
with the fixed column header
`score,status,final_url,orig_url,content_type,server,content_length,response_ms,tls_issuer,flags,notes`
and consists of one record per outcome in that column order (fields
comma-separated, quoted when needed); the concurrently-written streaming
tabular artifact uses a different 8-column header. -/
theorem sorted_csv_header (items : List RawEvent) :
    sStartsWith (write_csv items)
      "score,status,final_url,orig_url,content_type,server,content_length,response_ms,tls_issuer,flags,notes
"
      = true ∧
    write_csv items =
      csvRecord csvHeaderFields ++ String.join (items.map (fun e => csvRecord (csvRow e))) := by
  constructor
  · have hh :
        ("score,status,final_url,orig_url,content_type,server,content_length,response_ms,tls_issuer,flags,notes
"
          : String) = csvRecord csvHeaderFields := by decide
    rw [hh]
    unfold write_csv
    exact sStartsWith_append _ _
  · rfl

/-- C10 (counterexample): in lite mode the scan deadline (the `timeout`
setting, default 10 s) differs from the per-request timeout (fixed 3 s). -/
theorem lite_scan_timeout_cex :
    scan_timeout 10 = 10 ∧ probe_timeout true 10 = 3 ∧
    scan_timeout 10 ≠ probe_timeout true 10 := by
  decide

/-- C10 (amended): the orchestrator's global scan deadline is always the
`timeout` setting, which is also the per-request timeout for every non-lite
scan; so outside lite mode the whole probing stream is cut off after one
per-request-timeout's worth of wall time. -/
theorem scan_deadline_eq_probe_timeout (timeout : Nat) :
    scan_timeout timeout = probe_timeout false timeout := rfl

end APIHunter
namespace APIHunter

/-- `parseDigits` leaves a non-digit-led input untouched. -/
theorem parseDigits_stop (cs : List Char) (acc : Nat) (h : noDigitLead cs = true) :
    parseDigits cs acc = (acc, cs) := by
  cases cs with
  | nil => rfl
  | cons c r =>
    simp only [noDigitLead, Bool.not_eq_eq_eq_not, Bool.not_true] at h
    simp [parseDigits, h]

/-- Code of a decimal digit character. -/
theorem digitChar_toNat (k : Nat) (h : k < 10) : (digitChar k).toNat = 48 + k := by
  interval_cases k <;> decide

/-- Decimal digit characters pass the digit test. -/
theorem isDigit_digitChar (k : Nat) (h : k < 10) : isDigitCh (digitChar k) = true := by
  simp only [isDigitCh, digitChar_toNat k h, Bool.and_eq_true, decide_eq_true_eq]
  omega

/-- The accumulator of `natToCharsAux` is just appended to the digits. -/
theorem natToCharsAux_acc : ∀ fuel n acc,
    natToCharsAux fuel n acc = natToCharsAux fuel n [] ++ acc := by
  intro fuel
  induction fuel with
  | zero => intro n acc; rfl
  | succ f ih =>
    intro n acc
    by_cases h : n < 10
    · simp [natToCharsAux, h]
    · simp only [natToCharsAux, if_neg h]
      rw [ih (n / 10) (digitChar (n % 10) :: acc), ih (n / 10) [digitChar (n % 10)]]
      simp

/-- Any fuel above `n` computes the same digits. -/
theorem natToCharsAux_irrel : ∀ (n f1 f2 : Nat) (acc : List Char), n < f1 → n < f2 →
    natToCharsAux f1 n acc = natToCharsAux f2 n acc := by
  intro n
  induction n using Nat.strong_induction_on with
  | _ n ih =>
    intro f1 f2 acc h1 h2
    obtain ⟨fa, rfl⟩ : ∃ fa, f1 = fa + 1 := ⟨f1 - 1, by omega⟩
    obtain ⟨fb, rfl⟩ : ∃ fb, f2 = fb + 1 := ⟨f2 - 1, by omega⟩
    by_cases h : n < 10
    · simp [natToCharsAux, h]
    · have hd : n / 10 < n := Nat.div_lt_self (by omega) (by omega)
      simp only [natToCharsAux, if_neg h]
      exact ih (n / 10) hd fa fb _ (by omega) (by omega)

/-- The recursive unfolding of `natToChars`. -/
theorem natToChars_eq (n : Nat) : natToChars n =
    if n < 10 then [digitChar n] else natToChars (n / 10) ++ [digitChar (n % 10)] := by
  unfold natToChars
  by_cases h : n < 10
  · simp [natToCharsAux, h]
  · have hd : n / 10 < n := Nat.div_lt_self (by omega) (by omega)
    have step : natToCharsAux (n + 1) n [] = natToCharsAux n (n / 10) [digitChar (n % 10)] := by
      simp [natToCharsAux, h]
    rw [if_neg h, step, natToCharsAux_acc n (n / 10) [digitChar (n % 10)],
        natToCharsAux_irrel (n / 10) n (n / 10 + 1) [] hd (by omega)]

/-- Every rendered character of a number is a digit. -/
theorem natToChars_digits (n : Nat) : ∀ c ∈ natToChars n, isDigitCh c = true := by
  induction n using Nat.strong_induction_on with
  | _ n ih =>
    rw [natToChars_eq]
    by_cases h : n < 10
    · simp only [if_pos h, List.mem_singleton]
      rintro c rfl
      exact isDigit_digitChar n h
    · have hd : n / 10 < n := Nat.div_lt_self (by omega) (by omega)
      simp only [if_neg h, List.mem_append, List.mem_singleton]
      rintro c (hc | rfl)
      · exact ih (n / 10) hd c hc
      · exact isDigit_digitChar _ (Nat.mod_lt n (by omega))

/-- A rendered number is never empty. -/
theorem natToChars_ne_nil (n : Nat) : natToChars n ≠ [] := by
  rw [natToChars_eq]
  by_cases h : n < 10 <;> simp [h]

/-- Running the digit scanner over a rendered number folds it back onto the
accumulator. -/
theorem parseDigits_shift (n : Nat) : ∀ (rest : List Char) (acc : Nat),
    parseDigits (natToChars n ++ rest) acc
      = parseDigits rest (acc * 10 ^ (natToChars n).length + n) := by
  induction n using Nat.strong_induction_on with
  | _ n ih =>
    intro rest acc
    rw [natToChars_eq]
    by_cases h : n < 10
    · simp only [if_pos h, List.singleton_append, List.length_singleton]
      rw [parseDigits.eq_def]
      simp only [if_pos (isDigit_digitChar n h), digitChar_toNat n h]
      norm_num
    · have hd : n / 10 < n := Nat.div_lt_self (by omega) (by omega)
      have hm : n % 10 < 10 := Nat.mod_lt n (by omega)
      simp only [if_neg h, List.append_assoc, List.singleton_append, List.length_append,
        List.length_singleton]
      rw [ih (n / 10) hd (digitChar (n % 10) :: rest) acc]
      rw [parseDigits.eq_def]
      simp only [if_pos (isDigit_digitChar _ hm), digitChar_toNat _ hm]
      have hpow : 10 ^ ((natToChars (n / 10)).length + 1)
          = 10 ^ (natToChars (n / 10)).length * 10 := pow_succ 10 _
      rw [hpow]
      have hassoc : acc * (10 ^ (natToChars (n / 10)).length * 10)
          = acc * 10 ^ (natToChars (n / 10)).length * 10 := by ring
      rw [hassoc]
      congr 1
      omega

end APIHunter
namespace APIHunter

/-- `escString` distributes over cons. -/
theorem escString_cons (c : Char) (cs : List Char) :
    escString (c :: cs) = escChar c ++ escString cs := by
  simp [escString]

/-- `hexVal` inverts `hexDigitChar` below 16. -/
theorem hexVal_hexDigitChar (k : Nat) (h : k < 16) : hexVal (hexDigitChar k) = some k := by
  interval_cases k <;> decide

/-- Unescaping a `serde_json`-escaped string body recovers it exactly, leaving
whatever follows the closing quote. -/
theorem parseStrBody_esc : ∀ (cs rest : List Char),
    parseStrBody (escString cs ++ ('"' :: rest)) = some (cs, rest) := by
  intro cs
  induction cs with
  | nil =>
    intro rest
    rw [escString, List.map_nil, List.flatten_nil, List.nil_append, parseStrBody.eq_def]
    simp
  | cons c cs' ih =>
    intro rest
    rw [escString_cons, List.append_assoc]
    by_cases hq : c = '"'
    · subst hq
      rw [escChar, if_pos rfl, List.cons_append, List.singleton_append, parseStrBody.eq_def]
      simp [ih rest]
    · by_cases hb : c = '\\'
      · subst hb
        rw [escChar]
        rw [if_neg (by decide), if_pos rfl, List.cons_append, List.singleton_append,
          parseStrBody.eq_def]
        simp [ih rest]
      · by_cases h8 : c.toNat = 8
        · have hc : Char.ofNat 8 = c := by rw [← h8]; exact Char.ofNat_toNat c
          rw [escChar, if_neg hq, if_neg hb, if_pos h8, List.cons_append, List.singleton_append,
            parseStrBody.eq_def]
          simp [ih rest]
          exact hc
        · by_cases h12 : c.toNat = 12
          · have hc : Char.ofNat 12 = c := by rw [← h12]; exact Char.ofNat_toNat c
            rw [escChar, if_neg hq, if_neg hb, if_neg h8, if_pos h12, List.cons_append,
              List.singleton_append, parseStrBody.eq_def]
            simp [ih rest]
            exact hc
          · by_cases hn : c = '\n'
            · subst hn
              rw [escChar, if_neg hq, if_neg hb, if_neg h8, if_neg h12, if_pos rfl,
                List.cons_append, List.singleton_append, parseStrBody.eq_def]
              simp [ih rest]
            · by_cases hr : c = '\r'
              · subst hr
                rw [escChar, if_neg hq, if_neg hb, if_neg h8, if_neg h12, if_neg hn, if_pos rfl,
                  List.cons_append, List.singleton_append, parseStrBody.eq_def]
                simp [ih rest]
              · by_cases ht : c = '\t'
                · subst ht
                  rw [escChar, if_neg hq, if_neg hb, if_neg h8, if_neg h12, if_neg hn, if_neg hr,
                    if_pos rfl, List.cons_append, List.singleton_append, parseStrBody.eq_def]
                  simp [ih rest]
                · by_cases hlt : c.toNat < 32
                  · have hdiv : c.toNat / 16 < 16 := by omega
                    have hmod : c.toNat % 16 < 16 := Nat.mod_lt _ (by omega)
                    have hcode : c.toNat / 16 * 16 + c.toNat % 16 = c.toNat := by omega
                    rw [escChar, if_neg hq, if_neg hb, if_neg h8, if_neg h12, if_neg hn, if_neg hr,
                      if_neg ht, if_pos hlt]
                    rw [List.cons_append, List.cons_append, List.cons_append, List.cons_append,
                      List.cons_append, List.singleton_append, parseStrBody.eq_def]
                    simp [hexVal_hexDigitChar _ hdiv, hexVal_hexDigitChar _ hmod,
                      ih rest, (by decide : hexVal '0' = some 0)]
                    refine ⟨by rw [hcode]; simp only [Nat.isValidChar]; omega, ?_⟩
                    rw [hcode]
                    exact Char.ofNat_toNat c
                  · rw [escChar, if_neg hq, if_neg hb, if_neg h8, if_neg h12, if_neg hn, if_neg hr,
                      if_neg ht, if_neg hlt, List.singleton_append, parseStrBody.eq_def]
                    simp [hq, hb, hlt, ih rest]

end APIHunter
namespace APIHunter

/-- Everything `escChar` emits is a printable (≥ 0x20) character. -/
theorem escChar_ge32 (c : Char) : ∀ x ∈ escChar c, 32 ≤ x.toNat := by
  intro x hx
  by_cases hq : c = '"'
  · subst hq; simp [escChar] at hx; rcases hx with rfl | rfl <;> decide
  · by_cases hb : c = '\\'
    · subst hb; simp [escChar] at hx; rcases hx with rfl | rfl <;> decide
    · by_cases h8 : c.toNat = 8
      · rw [escChar, if_neg hq, if_neg hb, if_pos h8] at hx
        simp at hx; rcases hx with rfl | rfl <;> decide
      · by_cases h12 : c.toNat = 12
        · rw [escChar, if_neg hq, if_neg hb, if_neg h8, if_pos h12] at hx
          simp at hx; rcases hx with rfl | rfl <;> decide
        · by_cases hn : c = '\n'
          · subst hn; simp [escChar] at hx; rcases hx with rfl | rfl <;> decide
          · by_cases hr : c = '\r'
            · subst hr; simp [escChar] at hx; rcases hx with rfl | rfl <;> decide
            · by_cases ht : c = '\t'
              · subst ht; simp [escChar] at hx; rcases hx with rfl | rfl <;> decide
              · by_cases hlt : c.toNat < 32
                · rw [escChar, if_neg hq, if_neg hb, if_neg h8, if_neg h12, if_neg hn, if_neg hr,
                    if_neg ht, if_pos hlt] at hx
                  have hd16 : c.toNat / 16 < 16 := by omega
                  have hm16 : c.toNat % 16 < 16 := Nat.mod_lt _ (by omega)
                  have hhex : ∀ k, k < 16 → 48 ≤ (hexDigitChar k).toNat := by
                    intro k hk; interval_cases k <;> decide
                  simp at hx
                  rcases hx with rfl | rfl | rfl | rfl | rfl
                  · decide
                  · decide
                  · decide
                  · have h1 := hhex _ hd16
                    omega
                  · have h1 := hhex _ hm16
                    omega
                · rw [escChar, if_neg hq, if_neg hb, if_neg h8, if_neg h12, if_neg hn, if_neg hr,
                    if_neg ht, if_neg hlt] at hx
                  simp at hx
                  subst hx
                  omega

/-- Everything `escString` emits is printable. -/
theorem escString_ge32 (s : List Char) : ∀ x ∈ escString s, 32 ≤ x.toNat := by
  intro x hx
  rw [escString] at hx
  rw [List.mem_flatten] at hx
  obtain ⟨l, hl, hxl⟩ := hx
  rw [List.mem_map] at hl
  obtain ⟨c, _, rfl⟩ := hl
  exact escChar_ge32 c x hxl

/-- Digits are printable. -/
theorem natToChars_ge32 (n : Nat) : ∀ x ∈ natToChars n, 32 ≤ x.toNat := by
  intro x hx
  have := natToChars_digits n x hx
  simp [isDigitCh] at this
  omega

/-- Integer renderings are printable. -/
theorem intToChars_ge32 (n : Int) : ∀ x ∈ intToChars n, 32 ≤ x.toNat := by
  intro x hx
  unfold intToChars at hx
  by_cases h : n < 0
  · rw [if_pos h] at hx
    rcases List.mem_cons.mp hx with rfl | hx'
    · decide
    · exact natToChars_ge32 _ x hx'
  · rw [if_neg h] at hx
    exact natToChars_ge32 _ x hx

/-- Every character the JSON renderer emits is printable — in particular the
rendering contains no newline, carriage return, or other control
character. -/
theorem render_ge32 (j : Json) :
    (∀ x ∈ renderChars j, 32 ≤ x.toNat) ∧
    (∀ x ∈ renderArrRest j, 32 ≤ x.toNat) ∧
    (∀ x ∈ renderObjRest j, 32 ≤ x.toNat) := by
  induction j with
  | null =>
    refine ⟨?_, ?_, ?_⟩ <;> intro x hx <;> simp [renderChars, renderArrRest, renderObjRest] at hx
    rcases hx with rfl | rfl | rfl | rfl <;> decide
  | bool b =>
    refine ⟨?_, ?_, ?_⟩ <;> intro x hx <;>
      cases b <;> simp [renderChars, renderArrRest, renderObjRest] at hx
    · rcases hx with rfl | rfl | rfl | rfl | rfl <;> decide
    · rcases hx with rfl | rfl | rfl | rfl <;> decide
  | num n =>
    refine ⟨?_, ?_, ?_⟩ <;> intro x hx <;> simp [renderChars, renderArrRest, renderObjRest] at hx
    exact intToChars_ge32 n x hx
  | str s =>
    refine ⟨?_, ?_, ?_⟩ <;> intro x hx <;> simp [renderChars, renderArrRest, renderObjRest] at hx
    rcases hx with rfl | hx' | rfl
    · decide
    · exact escString_ge32 _ x hx'
    · decide
  | arrNil =>
    refine ⟨?_, ?_, ?_⟩ <;> intro x hx <;> simp [renderChars, renderArrRest, renderObjRest] at hx
    rcases hx with rfl | rfl <;> decide
  | arrCons hd tl ihh iht =>
    refine ⟨?_, ?_, ?_⟩ <;> intro x hx <;>
      simp [renderChars, renderArrRest, renderObjRest] at hx
    · rcases hx with rfl | hx' | hx' | rfl
      · decide
      · exact ihh.1 x hx'
      · exact iht.2.1 x hx'
      · decide
    · rcases hx with rfl | hx' | hx'
      · decide
      · exact ihh.1 x hx'
      · exact iht.2.1 x hx'
  | objNil =>
    refine ⟨?_, ?_, ?_⟩ <;> intro x hx <;> simp [renderChars, renderArrRest, renderObjRest] at hx
    rcases hx with rfl | rfl <;> decide
  | objCons k v tl ihv iht =>
    refine ⟨?_, ?_, ?_⟩ <;> intro x hx <;>
      simp [renderChars, renderArrRest, renderObjRest] at hx
    · rcases hx with rfl | rfl | hx' | rfl | rfl | hx' | hx' | rfl
      · decide
      · decide
      · exact escString_ge32 _ x hx'
      · decide
      · decide
      · exact ihv.1 x hx'
      · exact iht.2.2 x hx'
      · decide
    · rcases hx with rfl | rfl | hx' | rfl | rfl | hx' | hx'
      · decide
      · decide
      · exact escString_ge32 _ x hx'
      · decide
      · decide
      · exact ihv.1 x hx'
      · exact iht.2.2 x hx'

end APIHunter
namespace APIHunter

/-- Skipping whitespace over a non-whitespace head is the identity. -/
theorem skipWs_not_ws (c : Char) (r : List Char) (h : isWs c = false) :
    skipWs (c :: r) = c :: r := by
  simp [skipWs, h]

/-- A decimal digit is not whitespace and is none of the parser's structural
characters. -/
theorem digit_not_special (d : Char) (h : isDigitCh d = true) :
    isWs d = false ∧ d ≠ 'n' ∧ d ≠ 't' ∧ d ≠ 'f' ∧ d ≠ '"' ∧ d ≠ '-' ∧ d ≠ '[' ∧
    d ≠ lbrace ∧ d ≠ ']' ∧ d ≠ rbrace ∧ d ≠ ',' ∧ d ≠ ':' := by
  have hb : 48 ≤ d.toNat ∧ d.toNat ≤ 57 := by simpa [isDigitCh] using h
  have hne : ∀ e : Char, d.toNat ≠ e.toNat → d ≠ e := fun e hn heq => hn (by rw [heq])
  have c1 : (' ').toNat = 32 := rfl
  have c2 : ('\t').toNat = 9 := rfl
  have c3 : ('\n').toNat = 10 := rfl
  have c4 : ('\r').toNat = 13 := rfl
  have c5 : ('n').toNat = 110 := rfl
  have c6 : ('t').toNat = 116 := rfl
  have c7 : ('f').toNat = 102 := rfl
  have c8 : ('"').toNat = 34 := rfl
  have c9 : ('-').toNat = 45 := rfl
  have c10 : ('[').toNat = 91 := rfl
  have c11 : lbrace.toNat = 123 := rfl
  have c12 : (']').toNat = 93 := rfl
  have c13 : rbrace.toNat = 125 := rfl
  have c14 : (',').toNat = 44 := rfl
  have c15 : (':').toNat = 58 := rfl
  refine ⟨?_, hne _ (by omega), hne _ (by omega), hne _ (by omega), hne _ (by omega),
    hne _ (by omega), hne _ (by omega), hne _ (by omega), hne _ (by omega),
    hne _ (by omega), hne _ (by omega), hne _ (by omega)⟩
  simp only [isWs, Bool.or_eq_false_iff, decide_eq_false_iff_not]
  exact ⟨⟨⟨hne _ (by omega), hne _ (by omega)⟩, hne _ (by omega)⟩, hne _ (by omega)⟩

/-- A rendered number starts with a digit. -/
theorem natToChars_head (n : Nat) :
    ∃ d ds, natToChars n = d :: ds ∧ isDigitCh d = true := by
  cases hn : natToChars n with
  | nil => exact absurd hn (natToChars_ne_nil n)
  | cons d ds =>
    refine ⟨d, ds, rfl, natToChars_digits n d ?_⟩
    rw [hn]
    exact List.mem_cons_self d ds

/-- The first character of any rendered value: never whitespace, never a
closing bracket or brace. -/
theorem renderHead (j : Json) :
    ∃ c cs, renderChars j = c :: cs ∧ isWs c = false ∧ c ≠ ']' ∧ c ≠ rbrace := by
  cases j with
  | null => exact ⟨'n', _, rfl, by decide, by decide, by decide⟩
  | bool b =>
    cases b with
    | false => exact ⟨'f', _, rfl, by decide, by decide, by decide⟩
    | true => exact ⟨'t', _, rfl, by decide, by decide, by decide⟩
  | num n =>
    rw [renderChars, intToChars]
    by_cases h : n < 0
    · rw [if_pos h]
      exact ⟨'-', _, rfl, by decide, by decide, by decide⟩
    · rw [if_neg h]
      obtain ⟨d, ds, hds, hd⟩ := natToChars_head n.toNat
      obtain ⟨w1, _, _, _, _, _, _, _, w9, w10, _, _⟩ := digit_not_special d hd
      exact ⟨d, ds, hds, w1, w9, w10⟩
  | str s => exact ⟨'"', _, rfl, by decide, by decide, by decide⟩
  | arrNil => exact ⟨'[', _, rfl, by decide, by decide, by decide⟩
  | arrCons hd tl => exact ⟨'[', _, rfl, by decide, by decide, by decide⟩
  | objNil => exact ⟨lbrace, _, rfl, by decide, by decide, by decide⟩
  | objCons k v tl => exact ⟨lbrace, _, rfl, by decide, by decide, by decide⟩

/-- The rendering of a value is untouched by a leading whitespace skip. -/
theorem skipWs_render (j : Json) (rest : List Char) :
    skipWs (renderChars j ++ rest) = renderChars j ++ rest := by
  obtain ⟨c, cs, hc, hws, _, _⟩ := renderHead j
  rw [hc, List.cons_append]
  exact skipWs_not_ws c _ hws

end APIHunter
namespace APIHunter

/-- Fuel is always positive. -/
theorem fuelJ_pos (j : Json) : 1 ≤ fuelJ j := by
  cases j <;> simp [fuelJ] <;> omega

/-- Folding the digit scanner over a rendered natural with a non-digit
continuation. -/
theorem parseDigits_natToChars (n : Nat) (rest : List Char) (hnd : noDigitLead rest = true) :
    parseDigits (natToChars n ++ rest) 0 = (n, rest) := by
  rw [parseDigits_shift n rest 0, parseDigits_stop rest _ hnd]
  norm_num

/-- Parsing a rendered number value. -/
theorem parseVal_num (f : Nat) (n : Int) (rest : List Char) (hnd : noDigitLead rest = true) :
    parseVal (f + 1) (renderChars (Json.num n) ++ rest) = some (Json.num n, rest) := by
  rw [parseVal.eq_def]
  simp only [skipWs_render]
  rw [renderChars, intToChars]
  by_cases hneg : n < 0
  · rw [if_pos hneg]
    obtain ⟨d, ds, hds, hd⟩ := natToChars_head n.natAbs
    have key : parseDigits (ds ++ rest) (d.toNat - 48) = (n.natAbs, rest) := by
      have h0 := parseDigits_natToChars n.natAbs rest hnd
      rw [hds, List.cons_append, parseDigits.eq_def] at h0
      simp only [hd, if_pos] at h0
      simpa using h0
    rw [hds]
    simp only [List.cons_append]
    simp [hd, key]
    have hnn : n ≤ 0 := by omega
    rw [abs_of_nonpos hnn]
    simp
  · rw [if_neg hneg]
    obtain ⟨d, ds, hds, hd⟩ := natToChars_head n.toNat
    obtain ⟨_, w2, w3, w4, w5, w6, _, w8, _, _, _, _⟩ := digit_not_special d hd
    have key : parseDigits (ds ++ rest) (d.toNat - 48) = (n.toNat, rest) := by
      have h0 := parseDigits_natToChars n.toNat rest hnd
      rw [hds, List.cons_append, parseDigits.eq_def] at h0
      simp only [hd, if_pos] at h0
      simpa using h0
    rw [hds]
    simp only [List.cons_append]
    simp [hd, key, w2, w3, w4, w5, w6, w8]
    omega

end APIHunter
namespace APIHunter

/-- The array-body continuation never starts with a digit. -/
theorem noDigitLead_arrRest (t : Json) (rest : List Char) :
    noDigitLead (renderArrRest t ++ (']' :: rest)) = true := by
  cases t <;> simp [renderArrRest, noDigitLead, isDigitCh]

/-- The object-body continuation never starts with a digit. -/
theorem noDigitLead_objRest (t : Json) (rest : List Char) :
    noDigitLead (renderObjRest t ++ (rbrace :: rest)) = true := by
  cases t <;> simp [renderObjRest, noDigitLead, isDigitCh] <;> decide

/-- One-step unfolding of `parseItems` at positive fuel. -/
theorem parseItems_succ (f : Nat) (cs : List Char) :
    parseItems (f + 1) cs =
      match parseVal f cs with
      | none => none
      | some (j, rest) =>
        match skipWs rest with
        | [] => none
        | d :: r2 =>
          if d = ',' then (parseItems f r2).map (fun p => (.arrCons j p.1, p.2))
          else if d = ']' then some (.arrCons j .arrNil, r2)
          else none := rfl

/-- One-step unfolding of `parseMembers` at positive fuel. -/
theorem parseMembers_succ (f : Nat) (cs : List Char) :
    parseMembers (f + 1) cs =
      match skipWs cs with
      | [] => none
      | q :: r =>
        if q = '"' then
          match parseStrBody r with
          | none => none
          | some (k, rest) =>
            match skipWs rest with
            | [] => none
            | col :: r2 =>
              if col = ':' then
                match parseVal f r2 with
                | none => none
                | some (v, rest2) =>
                  match skipWs rest2 with
                  | [] => none
                  | c :: r3 =>
                    if c = ',' then
                      (parseMembers f r3).map (fun p => (.objCons (String.mk k) v p.1, p.2))
                    else if c = rbrace then some (.objCons (String.mk k) v .objNil, r3)
                    else none
              else none
        else none := rfl

/-- Parsing inverts rendering: the fueled parser, given enough fuel, maps a
rendered well-formed value (and array body, and object body) followed by a
suitable continuation back to the value and the continuation. -/
theorem parse_render_main : ∀ f : Nat,
    (∀ j rest, jsonWF j = true → fuelJ j ≤ f → noDigitLead rest = true →
      parseVal f (renderChars j ++ rest) = some (j, rest)) ∧
    (∀ h t rest, jsonWF (Json.arrCons h t) = true → fuelJ h + fuelJ t ≤ f →
      parseItems f (renderChars h ++ (renderArrRest t ++ (']' :: rest)))
        = some (Json.arrCons h t, rest)) ∧
    (∀ k v t rest, jsonWF (Json.objCons k v t) = true → fuelJ v + fuelJ t ≤ f →
      parseMembers f (renderKv k v ++ (renderObjRest t ++ (rbrace :: rest)))
        = some (Json.objCons k v t, rest)) := by
  intro f
  induction f with
  | zero =>
    refine ⟨?_, ?_, ?_⟩
    · intro j rest _ hf _
      have := fuelJ_pos j
      omega
    · intro h t rest _ hf
      have := fuelJ_pos h
      have := fuelJ_pos t
      omega
    · intro k v t rest _ hf
      have := fuelJ_pos v
      have := fuelJ_pos t
      omega
  | succ f ih =>
    obtain ⟨ihV, ihI, ihM⟩ := ih
    refine ⟨?_, ?_, ?_⟩
    · -- parseVal on a rendered value
      intro j rest hwf hf hnd
      cases j with
      | null =>
        rw [parseVal.eq_def]
        simp only [skipWs_render]
        simp [renderChars]
      | bool b =>
        rw [parseVal.eq_def]
        simp only [skipWs_render]
        cases b <;> simp [renderChars]
      | num n => exact parseVal_num f n rest hnd
      | str s =>
        rw [parseVal.eq_def]
        simp only [skipWs_render]
        have hms : String.mk s.toList = s := rfl
        simp [renderChars, List.append_assoc]
        exact ⟨s.toList, parseStrBody_esc s.toList rest, hms⟩
      | arrNil =>
        rw [parseVal.eq_def]
        simp only [skipWs_render]
        simp [renderChars, skipWs, (by decide : isDigitCh '[' = false),
          (by decide : isWs ']' = false)]
      | arrCons hd tl =>
        have hfu : fuelJ hd + fuelJ tl ≤ f := by
          simp only [fuelJ] at hf
          omega
        rw [parseVal.eq_def]
        rw [renderChars]
        simp only [List.cons_append, List.append_assoc, List.singleton_append,
          List.nil_append]
        obtain ⟨c, cs, hc, hws, hc1, hc2⟩ := renderHead hd
        have heq : renderChars hd ++ (renderArrRest tl ++ (']' :: rest))
            = c :: (cs ++ (renderArrRest tl ++ (']' :: rest))) := by
          rw [hc, List.cons_append]
        rw [heq]
        simp [skipWs, hws, hc1, (by decide : isWs '[' = false),
          (by decide : isDigitCh '[' = false)]
        rw [← heq]
        exact ihI hd tl rest hwf hfu
      | objNil =>
        rw [parseVal.eq_def]
        simp only [skipWs_render]
        simp [renderChars, skipWs, (by decide : (lbrace = 'n') = False),
          (by decide : (lbrace = 't') = False), (by decide : (lbrace = 'f') = False),
          (by decide : (lbrace = '"') = False), (by decide : (lbrace = '-') = False),
          (by decide : isDigitCh lbrace = false), (by decide : (lbrace = '[') = False),
          (by decide : isWs rbrace = false)]
      | objCons k v tl =>
        have hfu : fuelJ v + fuelJ tl ≤ f := by
          simp only [fuelJ] at hf
          omega
        rw [parseVal.eq_def]
        rw [renderChars]
        simp only [List.cons_append, List.append_assoc, List.singleton_append]
        have heq : renderKv k v ++ (renderObjRest tl ++ (rbrace :: rest))
            = '"' :: (escString k.toList ++ ('"' :: ':' :: renderChars v)
                ++ (renderObjRest tl ++ (rbrace :: rest))) := by
          rw [renderKv, List.cons_append]
        simp [skipWs, (by decide : (lbrace = 'n') = False),
          (by decide : (lbrace = 't') = False), (by decide : (lbrace = 'f') = False),
          (by decide : (lbrace = '"') = False), (by decide : (lbrace = '-') = False),
          (by decide : isDigitCh lbrace = false), (by decide : (lbrace = '[') = False),
          (by decide : ('"' = rbrace) = False), (by decide : isWs '"' = false)]
        have hgoal := ihM k v tl rest hwf hfu
        rw [heq] at hgoal
        simp only [List.append_assoc] at hgoal
        convert hgoal using 2
    · -- parseItems on a rendered nonempty array body
      intro h t rest hwf hfu
      have hwf' : jsonWF h = true ∧ isArrK t = true ∧ jsonWF t = true := by
        simpa [jsonWF, and_assoc] using hwf
      have hfh : fuelJ h ≤ f := by
        have := fuelJ_pos t
        omega
      rw [parseItems_succ]
      rw [ihV h (renderArrRest t ++ (']' :: rest)) hwf'.1 hfh (noDigitLead_arrRest t rest)]
      cases t with
      | arrNil =>
        simp [renderArrRest, skipWs, (by decide : isWs ']' = false)]
      | arrCons h2 t2 =>
        have hfu2 : fuelJ h2 + fuelJ t2 ≤ f := by
          simp only [fuelJ] at hfu
          have := fuelJ_pos h
          omega
        rw [renderArrRest]
        simp only [List.cons_append, List.append_assoc]
        rw [skipWs_not_ws ',' _ (by decide)]
        simp only [(by decide : (',' = ',') = True), if_true, reduceIte]
        rw [ihI h2 t2 rest hwf'.2.2 hfu2]
        rfl
      | null => simp [isArrK] at hwf'
      | bool b => simp [isArrK] at hwf'
      | num n => simp [isArrK] at hwf'
      | str s => simp [isArrK] at hwf'
      | objNil => simp [isArrK] at hwf'
      | objCons a b c => simp [isArrK] at hwf'
    · -- parseMembers on a rendered nonempty object body
      intro k v t rest hwf hfu
      have hwf' : jsonWF v = true ∧ isObjK t = true ∧ jsonWF t = true := by
        simpa [jsonWF, and_assoc] using hwf
      have hfv : fuelJ v ≤ f := by
        have := fuelJ_pos t
        omega
      have hms : String.mk k.toList = k := rfl
      rw [parseMembers_succ]
      rw [renderKv]
      simp only [List.cons_append, List.append_assoc]
      rw [skipWs_not_ws '"' _ (by decide)]
      simp only [(by decide : ('"' = '"') = True), if_true]
      rw [parseStrBody_esc]
      simp only [skipWs, (by decide : isWs ':' = false), Bool.false_eq_true, if_false,
        reduceCtorEq]
      rw [ihV v (renderObjRest t ++ (rbrace :: rest)) hwf'.1 hfv (noDigitLead_objRest t rest)]
      cases t with
      | objNil =>
        simp [renderObjRest, skipWs, (by decide : isWs rbrace = false),
          (by decide : (rbrace = ',') = False), hms]
      | objCons k2 v2 t2 =>
        have hfu2 : fuelJ v2 + fuelJ t2 ≤ f := by
          simp only [fuelJ] at hfu
          have := fuelJ_pos v
          omega
        rw [renderObjRest]
        simp only [List.cons_append, List.append_assoc]
        rw [skipWs_not_ws ',' _ (by decide)]
        simp only [(by decide : (',' = ',') = True), if_true]
        have hfold : ('"' :: (escString k2.toList ++ '"' :: ':' :: (renderChars v2
            ++ (renderObjRest t2 ++ rbrace :: rest))))
            = renderKv k2 v2 ++ (renderObjRest t2 ++ (rbrace :: rest)) := by
          rw [renderKv]
          simp [List.cons_append, List.append_assoc]
        rw [hfold, ihM k2 v2 t2 rest hwf'.2.2 hfu2]
        simp [hms]
      | null => simp [isObjK] at hwf'
      | bool b => simp [isObjK] at hwf'
      | num n => simp [isObjK] at hwf'
      | str s => simp [isObjK] at hwf'
      | arrNil => simp [isObjK] at hwf'
      | arrCons a b => simp [isObjK] at hwf'

end APIHunter
namespace APIHunter

/-- Deserializing a serialized `Option<String>` field. -/
theorem jsonOptStr_optStrJson (o : Option String) : jsonOptStr (optStrJson o) = some o := by
  cases o <;> simp [optStrJson, jsonOptStr]

/-- Deserializing a serialized in-range `Option<u64>` field. -/
theorem jsonOptNat_optNatJson (o : Option Nat) (h : ∀ n, o = some n → n < 2 ^ 64) :
    jsonOptNat (optNatJson o) = some o := by
  cases o with
  | none => simp [optNatJson, jsonOptNat]
  | some n =>
    have hn := h n rfl
    have hi : (0 : Int) ≤ (n : Int) ∧ (n : Int) < 2 ^ 64 := by
      constructor
      · exact Int.natCast_nonneg n
      · exact_mod_cast hn
    simp [optNatJson, jsonOptNat, hi]
    omega

/-- Deserializing the serialized notes array. -/
theorem jsonStrList_notesJson (ns : List String) : jsonStrList (notesJson ns) = some ns := by
  induction ns with
  | nil => simp [notesJson, jsonStrList]
  | cons s t ih => simp [notesJson, jsonStrList, ih]

/-- The serialized notes array is a well-formed array chain. -/
theorem notesJson_wf (ns : List String) :
    jsonWF (notesJson ns) = true ∧ isArrK (notesJson ns) = true := by
  induction ns with
  | nil => simp [notesJson, jsonWF, isArrK]
  | cons s t ih =>
    constructor
    · simp [notesJson, jsonWF, ih.1, ih.2]
    · simp [notesJson, isArrK]

/-- Serialized optional strings are well-formed values. -/
theorem optStrJson_wf (o : Option String) : jsonWF (optStrJson o) = true := by
  cases o <;> simp [optStrJson, jsonWF]

/-- Serialized optional numbers are well-formed values. -/
theorem optNatJson_wf (o : Option Nat) : jsonWF (optNatJson o) = true := by
  cases o <;> simp [optNatJson, jsonWF]

/-- A serialized event is a well-formed JSON value whenever its sample is. -/
theorem toJson_wf (e : RawEvent) (hs : ∀ j, e.json_sample = some j → jsonWF j = true) :
    jsonWF (RawEvent.toJson e) = true := by
  have hsample : jsonWF (match e.json_sample with | none => Json.null | some j => j) = true := by
    cases hj : e.json_sample with
    | none => simp [jsonWF]
    | some w => simpa using hs w hj
  simp [RawEvent.toJson, jsonWF, isObjK, optStrJson_wf, optNatJson_wf,
    (notesJson_wf e.notes).1, (notesJson_wf e.notes).2, hsample]

end APIHunter
namespace APIHunter

/-- Unfolding lemma: walking an empty entry list. -/
theorem collectFields_nil (b : REBuilder) : collectFields .objNil b = some b := rfl

/-- Unfolding lemma: walking one entry. -/
theorem collectFields_cons (k : String) (v t : Json) (b : REBuilder) :
    collectFields (.objCons k v t) b = (feedField b k v).bind (collectFields t) := rfl

/-- Feeding the `orig_url` entry. -/
theorem feed_orig (s : String) (a2 : Option String) (a3 : Option Nat)
    (a4 a5 : Option (Option String)) (a6 a7 : Option (Option Nat))
    (a8 : Option (Option String)) (a9 : Option Bool) (a10 : Option (Option Json))
    (a11 : Option Int) (a12 : Option (List String)) :
    feedField ⟨none, a2, a3, a4, a5, a6, a7, a8, a9, a10, a11, a12⟩ "orig_url" (.str s)
      = some ⟨some s, a2, a3, a4, a5, a6, a7, a8, a9, a10, a11, a12⟩ := rfl

/-- Feeding the `final_url` entry. -/
theorem feed_final (a1 : Option String) (s : String) (a3 : Option Nat)
    (a4 a5 : Option (Option String)) (a6 a7 : Option (Option Nat))
    (a8 : Option (Option String)) (a9 : Option Bool) (a10 : Option (Option Json))
    (a11 : Option Int) (a12 : Option (List String)) :
    feedField ⟨a1, none, a3, a4, a5, a6, a7, a8, a9, a10, a11, a12⟩ "final_url" (.str s)
      = some ⟨a1, some s, a3, a4, a5, a6, a7, a8, a9, a10, a11, a12⟩ := rfl

/-- Feeding an in-range `status` entry. -/
theorem feed_status (a1 a2 : Option String) (st : Nat)
    (a4 a5 : Option (Option String)) (a6 a7 : Option (Option Nat))
    (a8 : Option (Option String)) (a9 : Option Bool) (a10 : Option (Option Json))
    (a11 : Option Int) (a12 : Option (List String))
    (hst : (0 : Int) ≤ (st : Int) ∧ (st : Int) < 65536) :
    feedField ⟨a1, a2, none, a4, a5, a6, a7, a8, a9, a10, a11, a12⟩ "status" (.num st)
      = some ⟨a1, a2, some st, a4, a5, a6, a7, a8, a9, a10, a11, a12⟩ := by
  unfold feedField
  simp [hst]

/-- Feeding the `content_type` entry. -/
theorem feed_ct (a1 a2 : Option String) (a3 : Option Nat) (o : Option String)
    (a5 : Option (Option String)) (a6 a7 : Option (Option Nat))
    (a8 : Option (Option String)) (a9 : Option Bool) (a10 : Option (Option Json))
    (a11 : Option Int) (a12 : Option (List String)) :
    feedField ⟨a1, a2, a3, none, a5, a6, a7, a8, a9, a10, a11, a12⟩ "content_type"
        (optStrJson o)
      = some ⟨a1, a2, a3, some o, a5, a6, a7, a8, a9, a10, a11, a12⟩ := by
  unfold feedField
  simp [jsonOptStr_optStrJson]

/-- Feeding the `server` entry. -/
theorem feed_server (a1 a2 : Option String) (a3 : Option Nat)
    (a4 : Option (Option String)) (o : Option String) (a6 a7 : Option (Option Nat))
    (a8 : Option (Option String)) (a9 : Option Bool) (a10 : Option (Option Json))
    (a11 : Option Int) (a12 : Option (List String)) :
    feedField ⟨a1, a2, a3, a4, none, a6, a7, a8, a9, a10, a11, a12⟩ "server"
        (optStrJson o)
      = some ⟨a1, a2, a3, a4, some o, a6, a7, a8, a9, a10, a11, a12⟩ := by
  unfold feedField
  simp [jsonOptStr_optStrJson]

/-- Feeding an in-range `content_length` entry. -/
theorem feed_cl (a1 a2 : Option String) (a3 : Option Nat)
    (a4 a5 : Option (Option String)) (o : Option Nat) (a7 : Option (Option Nat))
    (a8 : Option (Option String)) (a9 : Option Bool) (a10 : Option (Option Json))
    (a11 : Option Int) (a12 : Option (List String))
    (h : ∀ n, o = some n → n < 2 ^ 64) :
    feedField ⟨a1, a2, a3, a4, a5, none, a7, a8, a9, a10, a11, a12⟩ "content_length"
        (optNatJson o)
      = some ⟨a1, a2, a3, a4, a5, some o, a7, a8, a9, a10, a11, a12⟩ := by
  unfold feedField
  simp [jsonOptNat_optNatJson o h]

/-- Feeding an in-range `response_ms` entry. -/
theorem feed_ms (a1 a2 : Option String) (a3 : Option Nat)
    (a4 a5 : Option (Option String)) (a6 : Option (Option Nat)) (o : Option Nat)
    (a8 : Option (Option String)) (a9 : Option Bool) (a10 : Option (Option Json))
    (a11 : Option Int) (a12 : Option (List String))
    (h : ∀ n, o = some n → n < 2 ^ 64) :
    feedField ⟨a1, a2, a3, a4, a5, a6, none, a8, a9, a10, a11, a12⟩ "response_ms"
        (optNatJson o)
      = some ⟨a1, a2, a3, a4, a5, a6, some o, a8, a9, a10, a11, a12⟩ := by
  unfold feedField
  simp [jsonOptNat_optNatJson o h]

/-- Feeding the `tls_issuer` entry. -/
theorem feed_tls (a1 a2 : Option String) (a3 : Option Nat)
    (a4 a5 : Option (Option String)) (a6 a7 : Option (Option Nat))
    (o : Option String) (a9 : Option Bool) (a10 : Option (Option Json))
    (a11 : Option Int) (a12 : Option (List String)) :
    feedField ⟨a1, a2, a3, a4, a5, a6, a7, none, a9, a10, a11, a12⟩ "tls_issuer"
        (optStrJson o)
      = some ⟨a1, a2, a3, a4, a5, a6, a7, some o, a9, a10, a11, a12⟩ := by
  unfold feedField
  simp [jsonOptStr_optStrJson]

/-- Feeding the `is_graphql` entry. -/
theorem feed_ig (a1 a2 : Option String) (a3 : Option Nat)
    (a4 a5 : Option (Option String)) (a6 a7 : Option (Option Nat))
    (a8 : Option (Option String)) (v : Bool) (a10 : Option (Option Json))
    (a11 : Option Int) (a12 : Option (List String)) :
    feedField ⟨a1, a2, a3, a4, a5, a6, a7, a8, none, a10, a11, a12⟩ "is_graphql"
        (.bool v)
      = some ⟨a1, a2, a3, a4, a5, a6, a7, a8, some v, a10, a11, a12⟩ := rfl

/-- Feeding a `null` `json_sample` entry lands as `None`. -/
theorem feed_sample_null (a1 a2 : Option String) (a3 : Option Nat)
    (a4 a5 : Option (Option String)) (a6 a7 : Option (Option Nat))
    (a8 : Option (Option String)) (a9 : Option Bool)
    (a11 : Option Int) (a12 : Option (List String)) :
    feedField ⟨a1, a2, a3, a4, a5, a6, a7, a8, a9, none, a11, a12⟩ "json_sample"
        Json.null
      = some ⟨a1, a2, a3, a4, a5, a6, a7, a8, a9, some none, a11, a12⟩ := rfl

/-- Feeding a non-`null` `json_sample` entry lands as `Some`. -/
theorem feed_sample_some (a1 a2 : Option String) (a3 : Option Nat)
    (a4 a5 : Option (Option String)) (a6 a7 : Option (Option Nat))
    (a8 : Option (Option String)) (a9 : Option Bool) (w : Json)
    (a11 : Option Int) (a12 : Option (List String)) (hw : w ≠ Json.null) :
    feedField ⟨a1, a2, a3, a4, a5, a6, a7, a8, a9, none, a11, a12⟩ "json_sample" w
      = some ⟨a1, a2, a3, a4, a5, a6, a7, a8, a9, some (some w), a11, a12⟩ := by
  unfold feedField
  cases w
  case null => exact absurd rfl hw
  all_goals rfl

/-- Feeding an in-range `score` entry. -/
theorem feed_score (a1 a2 : Option String) (a3 : Option Nat)
    (a4 a5 : Option (Option String)) (a6 a7 : Option (Option Nat))
    (a8 : Option (Option String)) (a9 : Option Bool) (a10 : Option (Option Json))
    (sc : Int) (a12 : Option (List String))
    (hsc : -(2 ^ 31) ≤ sc ∧ sc < 2 ^ 31) :
    feedField ⟨a1, a2, a3, a4, a5, a6, a7, a8, a9, a10, none, a12⟩ "score" (.num sc)
      = some ⟨a1, a2, a3, a4, a5, a6, a7, a8, a9, a10, some sc, a12⟩ := by
  unfold feedField
  have hsc' : -2147483648 ≤ sc ∧ sc < 2147483648 := by
    constructor <;> [linarith [hsc.1]; linarith [hsc.2]]
  simp [hsc']

/-- Feeding the `notes` entry. -/
theorem feed_notes (a1 a2 : Option String) (a3 : Option Nat)
    (a4 a5 : Option (Option String)) (a6 a7 : Option (Option Nat))
    (a8 : Option (Option String)) (a9 : Option Bool) (a10 : Option (Option Json))
    (a11 : Option Int) (ns : List String) :
    feedField ⟨a1, a2, a3, a4, a5, a6, a7, a8, a9, a10, a11, none⟩ "notes"
        (notesJson ns)
      = some ⟨a1, a2, a3, a4, a5, a6, a7, a8, a9, a10, a11, some ns⟩ := by
  unfold feedField
  simp [jsonStrList_notesJson]

end APIHunter
namespace APIHunter

/-- Walking the first nine entries of a serialized event fills the first nine
builder slots. -/
theorem collect9 (ou fu : String) (st : Nat) (ct sv : Option String)
    (cl ms : Option Nat) (tl : Option String) (ig : Bool) (tail : Json)
    (h1 : st < 65536)
    (h2 : ∀ n, cl = some n → n < 2 ^ 64)
    (h3 : ∀ n, ms = some n → n < 2 ^ 64) :
    collectFields
      (.objCons "orig_url" (.str ou)
        (.objCons "final_url" (.str fu)
        (.objCons "status" (.num st)
        (.objCons "content_type" (optStrJson ct)
        (.objCons "server" (optStrJson sv)
        (.objCons "content_length" (optNatJson cl)
        (.objCons "response_ms" (optNatJson ms)
        (.objCons "tls_issuer" (optStrJson tl)
        (.objCons "is_graphql" (.bool ig) tail))))))))) {}
      = collectFields tail
          ⟨some ou, some fu, some st, some ct, some sv, some cl, some ms,
           some tl, some ig, none, none, none⟩ := by
  have hst : (0 : Int) ≤ (st : Int) ∧ (st : Int) < 65536 :=
    ⟨Int.natCast_nonneg st, by exact_mod_cast h1⟩
  rw [collectFields_cons, feed_orig, Option.some_bind,
      collectFields_cons, feed_final, Option.some_bind,
      collectFields_cons, feed_status _ _ _ _ _ _ _ _ _ _ _ _ hst,
      Option.some_bind,
      collectFields_cons, feed_ct, Option.some_bind,
      collectFields_cons, feed_server, Option.some_bind,
      collectFields_cons, feed_cl _ _ _ _ _ _ _ _ _ _ _ _ h2, Option.some_bind,
      collectFields_cons, feed_ms _ _ _ _ _ _ _ _ _ _ _ _ h3, Option.some_bind,
      collectFields_cons, feed_tls, Option.some_bind,
      collectFields_cons, feed_ig, Option.some_bind]

/-- Walking the last two entries (score, notes) of a serialized event. -/
theorem collect_suffix2 (a1 a2 : Option String) (a3 : Option Nat)
    (a4 a5 : Option (Option String)) (a6 a7 : Option (Option Nat))
    (a8 : Option (Option String)) (a9 : Option Bool) (a10 : Option (Option Json))
    (sc : Int) (ns : List String)
    (hsc : -(2 ^ 31) ≤ sc ∧ sc < 2 ^ 31) :
    collectFields
      (.objCons "score" (.num sc) (.objCons "notes" (notesJson ns) .objNil))
      ⟨a1, a2, a3, a4, a5, a6, a7, a8, a9, a10, none, none⟩
      = some ⟨a1, a2, a3, a4, a5, a6, a7, a8, a9, a10, some sc, some ns⟩ := by
  rw [collectFields_cons, feed_score _ _ _ _ _ _ _ _ _ _ _ _ hsc,
      Option.some_bind,
      collectFields_cons, feed_notes, Option.some_bind, collectFields_nil]

/-- Deserializing a serialized well-formed event recovers it, up to the
`Some(Null)` sample collapse. -/
theorem fromJson_toJson (e : RawEvent)
    (h1 : e.status < 65536)
    (h2 : ∀ n, e.content_length = some n → n < 2 ^ 64)
    (h3 : ∀ n, e.response_ms = some n → n < 2 ^ 64)
    (h4 : -(2 ^ 31) ≤ e.score) (h5 : e.score < 2 ^ 31) :
    RawEvent.fromJson (RawEvent.toJson e) = some (collapseNullSample e) := by
  obtain ⟨ou, fu, st, ct, sv, cl, ms, tl, ig, js, sc, ns⟩ := e
  simp only at h1 h2 h3 h4 h5
  have hsc : -(2 ^ 31) ≤ sc ∧ sc < 2 ^ 31 := ⟨h4, h5⟩
  simp only [RawEvent.toJson, RawEvent.fromJson]
  cases js with
  | none =>
      rw [collect9 _ _ _ _ _ _ _ _ _ _ h1 h2 h3,
          collectFields_cons, feed_sample_null, Option.some_bind,
          collect_suffix2 _ _ _ _ _ _ _ _ _ _ _ _ hsc, Option.some_bind]
      rfl
  | some w =>
      cases w
      case null =>
        rw [collect9 _ _ _ _ _ _ _ _ _ _ h1 h2 h3,
            collectFields_cons, feed_sample_null, Option.some_bind,
            collect_suffix2 _ _ _ _ _ _ _ _ _ _ _ _ hsc, Option.some_bind]
        rfl
      all_goals
        rw [collect9 _ _ _ _ _ _ _ _ _ _ h1 h2 h3,
            collectFields_cons, feed_sample_some _ _ _ _ _ _ _ _ _ _ _ _ (by simp),
            Option.some_bind,
            collect_suffix2 _ _ _ _ _ _ _ _ _ _ _ _ hsc, Option.some_bind]
        rfl

end APIHunter
namespace APIHunter

/-- The parser fuel estimate is bounded by the rendering's length. -/
theorem render_size (j : Json) :
    (jsonWF j = true → fuelJ j ≤ (renderChars j).length) ∧
    (jsonWF j = true → isArrK j = true → fuelJ j ≤ (renderArrRest j).length + 1) ∧
    (jsonWF j = true → isObjK j = true → fuelJ j ≤ (renderObjRest j).length + 1) := by
  induction j with
  | null =>
    refine ⟨?_, ?_, ?_⟩ <;> intro _ <;>
      simp [renderChars, renderArrRest, renderObjRest, fuelJ]
  | bool b =>
    refine ⟨?_, ?_, ?_⟩ <;> intro _ <;>
      cases b <;> simp [renderChars, renderArrRest, renderObjRest, fuelJ]
  | num n =>
    refine ⟨?_, ?_, ?_⟩
    · intro _
      have hne : intToChars n ≠ [] := by
        unfold intToChars
        by_cases h : n < 0
        · simp [h]
        · simp [h, natToChars_ne_nil]
      have : 0 < (intToChars n).length := List.length_pos.mpr hne
      simp only [renderChars, fuelJ]
      omega
    · intro _ h
      simp [isArrK] at h
    · intro _ h
      simp [isObjK] at h
  | str s =>
    refine ⟨?_, ?_, ?_⟩ <;> intro _ <;>
      simp [renderChars, renderArrRest, renderObjRest, fuelJ, isArrK, isObjK]
  | arrNil =>
    refine ⟨?_, ?_, ?_⟩ <;> intro _ <;>
      simp [renderChars, renderArrRest, renderObjRest, fuelJ, isArrK, isObjK]
  | arrCons hd tl ihh iht =>
    refine ⟨?_, ?_, ?_⟩
    · intro hwf
      simp only [jsonWF, Bool.and_eq_true] at hwf
      have h1 := ihh.1 hwf.1.1
      have h2 := iht.2.1 hwf.2 hwf.1.2
      simp only [renderChars, fuelJ, List.length_cons, List.length_append]
      omega
    · intro hwf _
      simp only [jsonWF, Bool.and_eq_true] at hwf
      have h1 := ihh.1 hwf.1.1
      have h2 := iht.2.1 hwf.2 hwf.1.2
      simp only [renderArrRest, fuelJ, List.length_cons, List.length_append]
      omega
    · intro _ h
      simp [isObjK] at h
  | objNil =>
    refine ⟨?_, ?_, ?_⟩ <;> intro _ <;>
      simp [renderChars, renderArrRest, renderObjRest, fuelJ, isArrK, isObjK]
  | objCons k v tl ihv iht =>
    refine ⟨?_, ?_, ?_⟩
    · intro hwf
      simp only [jsonWF, Bool.and_eq_true] at hwf
      have h1 := ihv.1 hwf.1.1
      have h2 := iht.2.2 hwf.2 hwf.1.2
      simp only [renderChars, fuelJ, List.length_cons, List.length_append]
      omega
    · intro _ h
      simp [isArrK] at h
    · intro hwf _
      simp only [jsonWF, Bool.and_eq_true] at hwf
      have h1 := ihv.1 hwf.1.1
      have h2 := iht.2.2 hwf.2 hwf.1.2
      simp only [renderObjRest, fuelJ, List.length_cons, List.length_append]
      omega

/-- Parsing a rendered well-formed value consumes the whole input and returns
the value. -/
theorem parse_render (j : Json) (hwf : jsonWF j = true) :
    Json.parse? (renderChars j) = some j := by
  have hmain := (parse_render_main ((renderChars j).length + 1)).1 j [] hwf
    (by have := (render_size j).1 hwf; omega) (by rfl)
  unfold Json.parse?
  rw [List.append_nil] at hmain
  rw [hmain]
  rfl

end APIHunter
namespace APIHunter

/-- The model whitespace test agrees with `Char.isWhitespace`. -/
theorem isWhitespace_eq_isWs (c : Char) : c.isWhitespace = isWs c := by
  simp only [Char.isWhitespace, isWs]
  by_cases h1 : c = ' '
  · simp [h1]
  · by_cases h2 : c = '\t'
    · simp [h2]
    · by_cases h3 : c = '\n'
      · simp [h3]
      · by_cases h4 : c = '\r'
        · simp [h4]
        · simp [h1, h2, h3, h4]

/-- Splitting a newline-free line followed by a newline peels the line off. -/
theorem splitLines_noNl (l rest : List Char) (h : '\n' ∉ l) :
    splitLines (l ++ '\n' :: rest) = l :: splitLines rest := by
  induction l with
  | nil => simp [splitLines]
  | cons c t ih =>
    have hc : c ≠ '\n' := fun hc => h (hc ▸ List.mem_cons_self c t)
    have ht : '\n' ∉ t := fun hm => h (List.mem_cons_of_mem _ hm)
    rw [List.cons_append]
    simp only [splitLines, if_neg hc, ih ht]

/-- A line without a carriage return is unchanged by the per-line strip. -/
theorem stripCR_noCR (l : List Char) (h : '\r' ∉ l) : stripCR l = l := by
  unfold stripCR
  cases hrev : l.reverse with
  | nil => rfl
  | cons c t =>
    have hcl : c ∈ l := by
      rw [← List.mem_reverse, hrev]
      exact List.mem_cons_self c t
    have hc : c ≠ '\r' := fun hc => h (hc ▸ hcl)
    simp [hc]

/-- A rendered event line contains no newline. -/
theorem renderLine_noNl (e : RawEvent) : '\n' ∉ renderChars (RawEvent.toJson e) := by
  intro hm
  have h := (render_ge32 (RawEvent.toJson e)).1 _ hm
  exact absurd h (by decide)

/-- A rendered event line contains no carriage return. -/
theorem renderLine_noCR (e : RawEvent) : '\r' ∉ renderChars (RawEvent.toJson e) := by
  intro hm
  have h := (render_ge32 (RawEvent.toJson e)).1 _ hm
  exact absurd h (by decide)

/-- Splitting the JSONL file yields one fragment per event plus the empty
final fragment after the last newline. -/
theorem splitLines_write (evs : List RawEvent) :
    splitLines (write_jsonl evs)
      = (evs.map (fun e => renderChars (RawEvent.toJson e))) ++ [[]] := by
  induction evs with
  | nil => simp [write_jsonl, splitLines]
  | cons e t ih =>
    have : write_jsonl (e :: t)
        = renderChars (RawEvent.toJson e) ++ ('\n' :: write_jsonl t) := by
      simp [write_jsonl]
    rw [this, splitLines_noNl _ _ (renderLine_noNl e), ih]
    simp

/-- `str::lines` on the JSONL file yields exactly the rendered event lines. -/
theorem rustLines_write (evs : List RawEvent) :
    rustLines (write_jsonl evs)
      = evs.map (fun e => renderChars (RawEvent.toJson e)) := by
  simp only [rustLines, splitLines_write, List.getLast?_concat, reduceIte,
    List.dropLast_concat, List.map_map]
  refine List.map_congr_left ?_
  intro e _
  exact stripCR_noCR _ (renderLine_noCR e)

/-- A rendered event line is not whitespace-only. -/
theorem renderLine_notWs (e : RawEvent) :
    (renderChars (RawEvent.toJson e)).all Char.isWhitespace = false := by
  obtain ⟨c, cs, hc, hws, _, _⟩ := renderHead (RawEvent.toJson e)
  rw [hc, List.all_cons, isWhitespace_eq_isWs, hws, Bool.false_and]

/-- One step of the line loop on a parseable, non-blank line. -/
theorem readLinesLoop_cons_parse (l : List Char) (ls : List (List Char))
    (hws : l.all Char.isWhitespace = false) (j : Json)
    (hp : Json.parse? l = some j) (e : RawEvent)
    (hf : RawEvent.fromJson j = some e) :
    readLinesLoop (l :: ls) = (readLinesLoop ls).map (e :: ·) := by
  rw [readLinesLoop, hws]
  simp only [Bool.false_eq_true, if_false]
  simp only [hp]
  simp only [hf]

/-- Parsing the rendered lines of well-formed events recovers the events, up
to the `Some(Null)` sample collapse. -/
theorem readLinesLoop_write (evs : List RawEvent) (h : ∀ e ∈ evs, e.wf) :
    readLinesLoop (evs.map (fun e => renderChars (RawEvent.toJson e)))
      = some (evs.map collapseNullSample) := by
  induction evs with
  | nil => rfl
  | cons e t ih =>
    obtain ⟨h1, h2, h3, h4, h5, h6⟩ := h e (List.mem_cons_self e t)
    have hjwf : jsonWF (RawEvent.toJson e) = true := toJson_wf e h6
    rw [List.map_cons,
      readLinesLoop_cons_parse _ _ (renderLine_notWs e) _ (parse_render _ hjwf)
        _ (fromJson_toJson e h1 h2 h3 h4 h5),
      ih (fun e' he' => h e' (List.mem_cons_of_mem _ he'))]
    rfl

/-- Reloading the JSONL file written for well-formed events yields the same
events up to the `Some(Null)` sample collapse. -/
theorem read_write_jsonl (evs : List RawEvent) (h : ∀ e ∈ evs, e.wf) :
    read_jsonl (write_jsonl evs) = some (evs.map collapseNullSample) := by
  unfold read_jsonl
  rw [rustLines_write, readLinesLoop_write evs h]

/-- The sorted-CSV row of an event ignores the JSON sample slot. -/
theorem csvRow_collapse (e : RawEvent) : csvRow (collapseNullSample e) = csvRow e := rfl

/-- Re-emitting the reloaded events through the sorted-CSV writer produces a
file equal to the original run's. -/
theorem write_csv_collapse (evs : List RawEvent) :
    write_csv (evs.map collapseNullSample) = write_csv evs := by
  unfold write_csv
  rw [List.map_map]
  rfl

end APIHunter
namespace APIHunter

set_option maxRecDepth 100000 in
/-- C8 counterexample: an event whose `json_sample` is `Some(Value::Null)` —
as a probe of a body consisting of the four bytes `null` produces — does not
survive the JSONL round-trip: serde writes `Some(Null)` and `None` both as
`null`, and reloading yields `None`. -/
theorem jsonl_roundtrip_null_sample_cex :
    (∀ e ∈ [c8ex], e.wf) ∧ read_jsonl (write_jsonl [c8ex]) ≠ some [c8ex] := by
  refine ⟨by decide, by decide⟩

/-- C8 (corrected): reloading the JSONL file written for a list of
well-formed events yields the events with `Some(Null)` samples collapsed to
`None` — not always an equal list — and re-emitting the reloaded list through
the sorted tabular writer still produces a file identical to the original
run's, since the tabular format ignores the sample. -/
theorem jsonl_roundtrip (evs : List RawEvent) (h : ∀ e ∈ evs, e.wf) :
    read_jsonl (write_jsonl evs) = some (evs.map collapseNullSample) ∧
    write_csv (evs.map collapseNullSample) = write_csv evs :=
  ⟨read_write_jsonl evs h, write_csv_collapse evs⟩

set_option maxRecDepth 100000 in
/-- Witness: the round-trip theorem applied to a concrete event exercising
every field. -/
theorem jsonl_roundtrip_witness :
    read_jsonl (write_jsonl [c8wit]) = some ([c8wit].map collapseNullSample) ∧
    write_csv ([c8wit].map collapseNullSample) = write_csv [c8wit] :=
  jsonl_roundtrip [c8wit] (by decide)

end APIHunter
